import Mathlib

/-!
Verification of the `routing_model` membership / relocation state machine.

The Rust sources are shallowly embedded: each Rust type becomes a Lean
structure or inductive, the `BTreeMap` node table becomes an association
list ordered by key (well-formedness is a separate hypothesis, as for
`BTreeMap`'s internal invariant), and every Rust operation that can panic
(`assert!`, `unwrap!`, `expect`) is embedded as an `Option`-returning
function whose `none` result models the abort.

Naming note: the Rust field `shortest_prefix` and the test event
`SetShortestPrefix` are embedded as `shortestPfx` / `SetShortestPfx`.
-/

namespace RoutingModel

/-- Integer comparison, the embedding of `i32::cmp`. -/
def cmpInt (a b : Int) : Ordering :=
  if a < b then .lt else if a = b then .eq else .gt

/-- Boolean comparison with `false < true`, the embedding of `bool::cmp`. -/
def cmpBool (a b : Bool) : Ordering :=
  match a, b with
  | false, false => .eq
  | false, true => .lt
  | true, false => .gt
  | true, true => .eq

/-- Embedding of `utilities::Attributes` (field order `age`, `name` as in Rust). -/
structure Attributes where
  age : Int
  name : Int
deriving DecidableEq, Repr

/-- Derived lexicographic ordering of `Attributes` (Rust `derive(Ord)`). -/
def cmpAttributes (a b : Attributes) : Ordering :=
  (cmpInt a.age b.age).then (cmpInt a.name b.name)

/-- Embedding of `utilities::Candidate` (a newtype over `Attributes`). -/
structure Candidate where
  attrs : Attributes
deriving DecidableEq, Repr

/-- Embedding of `Candidate::name`. -/
def Candidate.name (c : Candidate) : Int := c.attrs.name

/-- Embedding of `utilities::Node` (a newtype over `Attributes`). -/
structure Node where
  attrs : Attributes
deriving DecidableEq, Repr

/-- Embedding of `Node::name`. -/
def Node.name (n : Node) : Int := n.attrs.name

/-- Embedding of `utilities::Section` (a plain integer tag). -/
abbrev Section := Int

/-- Embedding of `utilities::SectionInfo` (section tag and version). -/
structure SectionInfo where
  sec : Section
  version : Int
deriving DecidableEq, Repr

/-- Derived lexicographic ordering of `SectionInfo` (Rust `derive(Ord)`). -/
def cmpSectionInfo (a b : SectionInfo) : Ordering :=
  (cmpInt a.sec b.sec).then (cmpInt a.version b.version)

/-- Embedding of `utilities::GenesisPfxInfo`. -/
structure GenesisPfxInfo where
  info : SectionInfo
deriving DecidableEq, Repr

/-- Embedding of `utilities::RelocatedInfo`. -/
structure RelocatedInfo where
  candidate : Candidate
  expected_age : Int
  target_interval_centre : Int
  section_info : SectionInfo
deriving DecidableEq, Repr

/-- Embedding of `RelocatedInfo::old_public_id`. -/
def RelocatedInfo.old_public_id (i : RelocatedInfo) : Candidate := i.candidate

/-- Derived lexicographic ordering of `RelocatedInfo` (Rust `derive(Ord)`). -/
def cmpRelocatedInfo (a b : RelocatedInfo) : Ordering :=
  (cmpAttributes a.candidate.attrs b.candidate.attrs).then
    ((cmpInt a.expected_age b.expected_age).then
      ((cmpInt a.target_interval_centre b.target_interval_centre).then
        (cmpSectionInfo a.section_info b.section_info)))

/-- Embedding of `utilities::State`, the node lifecycle tag, in source order. -/
inductive State where
  | Online
  | RelocatingAgeIncrease
  | RelocatingHop
  | RelocatingBackOnline
  | Relocated (info : RelocatedInfo)
  | WaitingCandidateInfo (info : RelocatedInfo)
  | WaitingProofing
  | Offline
deriving DecidableEq, Repr

/-- Discriminant index of a `State` variant (used by the derived Rust ordering). -/
def State.idx : State → Nat
  | .Online => 0
  | .RelocatingAgeIncrease => 1
  | .RelocatingHop => 2
  | .RelocatingBackOnline => 3
  | .Relocated _ => 4
  | .WaitingCandidateInfo _ => 5
  | .WaitingProofing => 6
  | .Offline => 7

/-- Derived ordering of `State` (variant index first, then payload), as Rust
`derive(Ord)` produces. -/
def cmpState (a b : State) : Ordering :=
  match a, b with
  | .Relocated x, .Relocated y => cmpRelocatedInfo x y
  | .WaitingCandidateInfo x, .WaitingCandidateInfo y => cmpRelocatedInfo x y
  | _, _ => cmpInt a.idx b.idx

/-- Embedding of `State::is_relocating`. -/
def State.is_relocating (s : State) : Bool :=
  s == .RelocatingAgeIncrease || s == .RelocatingHop || s == .RelocatingBackOnline

/-- Embedding of `State::waiting_candidate_info`. -/
def State.waiting_candidate_info : State → Option RelocatedInfo
  | .WaitingCandidateInfo info => some info
  | _ => none

/-- Embedding of `State::is_not_yet_full_node`. -/
def State.is_not_yet_full_node : State → Bool
  | .WaitingCandidateInfo _ => true
  | .WaitingProofing => true
  | .RelocatingHop => true
  | _ => false

/-- Embedding of `utilities::NodeState`, a row of the node table. -/
structure NodeState where
  node : Node
  work_units_done : Int
  is_elder : Bool
  state : State
deriving DecidableEq, Repr

/-- Embedding of `NodeState::default()`. -/
def NodeState.default : NodeState :=
  { node := ⟨⟨0, 0⟩⟩, work_units_done := 0, is_elder := false, state := .Online }

/-- Embedding of `utilities::ChurnNeeded`. -/
inductive ChurnNeeded where
  | Split
  | Merge
deriving DecidableEq, Repr

/-- Embedding of `utilities::ChangeElder`. -/
structure ChangeElder where
  changes : List (Node × Bool)
  new_section : SectionInfo
deriving DecidableEq, Repr

/-- Embedding of `utilities::ProofRequest`. -/
structure ProofRequest where
  value : Int
deriving DecidableEq, Repr

/-- Embedding of `utilities::Proof`. -/
inductive Proof where
  | ValidPart
  | ValidEnd
  | Invalid
deriving DecidableEq, Repr

/-- Embedding of `Proof::is_valid`. -/
def Proof.is_valid : Proof → Bool
  | .ValidPart => true
  | .ValidEnd => true
  | .Invalid => false

/-- Embedding of `utilities::ProofSource`, a counter modelling a multi-part
resource proof stream. -/
structure ProofSource where
  counter : Int
deriving DecidableEq, Repr

/-- Embedding of `ProofSource::resend`. -/
def ProofSource.resend (s : ProofSource) : Option Proof :=
  if s.counter > 0 then some .ValidPart
  else if s.counter = 0 then some .ValidEnd
  else none

/-- Embedding of `ProofSource::next_part`: the counter is decremented first
(when above `-1`), then the proof part for the decremented counter is produced. -/
def ProofSource.next_part (s : ProofSource) : Option Proof × ProofSource :=
  let s' : ProofSource := if s.counter > -1 then ⟨s.counter - 1⟩ else s
  (s'.resend, s')

/-- Embedding of `utilities::CandidateInfo`. The field `waiting_candidate_name`
is the one `actions.rs` (`is_valid_waited_info`, `send_candidate_info`) reads. -/
structure CandidateInfo where
  old_public_id : Candidate
  new_public_id : Candidate
  destination : Int
  waiting_candidate_name : Int
  valid : Bool
deriving DecidableEq, Repr

/-- Embedding of `utilities::Rpc`. -/
inductive Rpc where
  | RefuseCandidate (candidate : Candidate)
  | RelocateResponse (info : RelocatedInfo)
  | RelocatedInfoRpc (info : RelocatedInfo)
  | ExpectCandidate (candidate : Candidate)
  | NodeConnected (candidate : Candidate) (info : GenesisPfxInfo)
  | ResourceProof (candidate : Candidate) (source : Int) (proof : ProofRequest)
  | ResourceProofReceipt (candidate : Candidate) (source : Int)
  | NodeApproval (candidate : Candidate) (info : GenesisPfxInfo)
  | ResourceProofResponse (candidate : Candidate) (destination : Int) (proof : Proof)
  | CandidateInfoRpc (info : CandidateInfo)
  | ConnectionInfoRequest (source : Int) (destination : Int) (connection_info : Int)
  | ConnectionInfoResponse (source : Int) (destination : Int) (connection_info : Int)
  | Merge (info : SectionInfo)
deriving DecidableEq, Repr

/-- Embedding of `utilities::ParsecVote`. -/
inductive ParsecVote where
  | ExpectCandidate (candidate : Candidate)
  | Online (old : Candidate) (new : Candidate)
  | PurgeCandidate (candidate : Candidate)
  | CheckResourceProof
  | AddElderNode (node : Node)
  | RemoveElderNode (node : Node)
  | NewSectionInfo (info : SectionInfo)
  | WorkUnitIncrement
  | CheckRelocate
  | RefuseCandidate (candidate : Candidate)
  | RelocateResponse (info : RelocatedInfo)
  | RelocatedInfoVote (info : RelocatedInfo)
  | CheckElder
  | Offline (node : Node)
  | BackOnline (node : Node)
  | NeighbourMerge (info : SectionInfo)
deriving DecidableEq, Repr

/-- Embedding of `ParsecVote::candidate`. -/
def ParsecVote.candidate : ParsecVote → Option Candidate
  | .ExpectCandidate c => some c
  | .Online c _ => some c
  | .PurgeCandidate c => some c
  | .RefuseCandidate c => some c
  | .RelocateResponse info => some info.candidate
  | _ => none

/-- Embedding of `utilities::LocalEvent`. -/
inductive LocalEvent where
  | TimeoutAccept
  | CheckResourceProofTimeout
  | TimeoutWorkUnit
  | TimeoutCheckRelocate
  | TimeoutCheckElder
  | JoiningTimeoutResendInfo
  | JoiningTimeoutConnectRefused
  | JoiningTimeoutProofRefused
  | ResourceProofForElderReady (name : Int)
  | NodeDetectedOffline (node : Node)
  | NodeDetectedBackOnline (node : Node)
deriving DecidableEq, Repr

/-- Embedding of `utilities::TestEvent` (`SetShortestPrefix` is embedded as
`SetShortestPfx`). -/
inductive TestEvent where
  | SetChurnNeeded (churn : ChurnNeeded)
  | SetShortestPfx (value : Option Section)
  | SetWorkUnitEnoughToRelocate (node : Node)
  | SetResourceProof (name : Int) (proof : ProofSource)
deriving DecidableEq, Repr

/-- Embedding of `utilities::NodeChange` (the constructor `State` is embedded
as `StateChange` to avoid shadowing the type `State`). -/
inductive NodeChange where
  | AddWithState (node : Node) (state : State)
  | ReplaceWith (name : Int) (node : Node) (state : State)
  | StateChange (node : Node) (state : State)
  | Remove (name : Int)
  | Elder (node : Node) (value : Bool)
deriving DecidableEq, Repr

/-- Embedding of `utilities::ActionTriggered`. -/
inductive ActionTriggered where
  | WorkUnitIncremented
  | MergeInfoStored (info : SectionInfo)
  | OurSectionChanged (info : SectionInfo)
  | CompleteMerge
  | CompleteSplit
  | Scheduled (event : LocalEvent)
  | Killed (event : LocalEvent)
  | ComputeResourceProofForElder (name : Int)
  | NotYetImplementedErrorTriggered
  | UnexpectedEventErrorTriggered
deriving DecidableEq, Repr

/-- Embedding of `utilities::WaitedEvent`. -/
inductive WaitedEvent where
  | Rpc (rpc : Rpc)
  | ParsecConsensus (vote : ParsecVote)
  | LocalEvent (event : LocalEvent)
deriving DecidableEq, Repr

/-- Embedding of `utilities::Event`. -/
inductive Event where
  | Rpc (rpc : Rpc)
  | ParsecConsensus (vote : ParsecVote)
  | LocalEvent (event : LocalEvent)
  | TestEvent (te : TestEvent)
  | NodeChange (nc : NodeChange)
  | ActionTriggered (at_ : ActionTriggered)
deriving DecidableEq, Repr

/-- Embedding of `Event::to_waited_event`. -/
def Event.to_waited_event : Event → Option WaitedEvent
  | .Rpc rpc => some (.Rpc rpc)
  | .ParsecConsensus v => some (.ParsecConsensus v)
  | .LocalEvent le => some (.LocalEvent le)
  | .TestEvent _ => none
  | .NodeChange _ => none
  | .ActionTriggered _ => none

/-- Embedding of `Event::to_test_event`. -/
def Event.to_test_event : Event → Option RoutingModel.TestEvent
  | .TestEvent te => some te
  | _ => none

/-- Embedding of `Rpc::to_event`, `ParsecVote::to_event`, etc. -/
def Rpc.to_event (r : Rpc) : Event := .Rpc r

/-- Embedding of `ParsecVote::to_event`. -/
def ParsecVote.to_event (v : ParsecVote) : Event := .ParsecConsensus v

/-- Embedding of `LocalEvent::to_event`. -/
def LocalEvent.to_event (e : LocalEvent) : Event := .LocalEvent e

/-- Embedding of `TestEvent::to_event`. -/
def TestEvent.to_event (e : TestEvent) : Event := .TestEvent e

/-- Embedding of `NodeChange::to_event`. -/
def NodeChange.to_event (e : NodeChange) : Event := .NodeChange e

/-- Embedding of `ActionTriggered::to_event`. -/
def ActionTriggered.to_event (e : ActionTriggered) : Event := .ActionTriggered e

/-- Embedding of `utilities::TryResult`. -/
inductive TryResult where
  | Handled
  | Unhandled
deriving DecidableEq, Repr

/-! Association-list model of `BTreeMap<Name, _>`: the list is kept ordered by
key, mirroring the map's iteration order. Well-formedness (strictly sorted
keys) is assumed as a hypothesis where a theorem needs it, as for the
`BTreeMap` internal invariant. -/

/-- Lookup in an association list keyed by `Int` (`BTreeMap::get`). -/
def alLookup {α : Type} (k : Int) : List (Int × α) → Option α
  | [] => none
  | (k', v) :: rest => if k = k' then some v else alLookup k rest

/-- Ordered insert (`BTreeMap::insert`); also returns the previous value. -/
def alInsert {α : Type} (k : Int) (v : α) : List (Int × α) → List (Int × α) × Option α
  | [] => ([(k, v)], none)
  | (k', v') :: rest =>
    if k < k' then ((k, v) :: (k', v') :: rest, none)
    else if k = k' then ((k, v) :: rest, some v')
    else
      let r := alInsert k v rest
      ((k', v') :: r.1, r.2)

/-- Removal (`BTreeMap::remove`); also returns the removed value. -/
def alRemove {α : Type} (k : Int) : List (Int × α) → List (Int × α) × Option α
  | [] => ([], none)
  | (k', v') :: rest =>
    if k = k' then (rest, some v')
    else
      let r := alRemove k rest
      ((k', v') :: r.1, r.2)

/-- In-place value update (`BTreeMap::get_mut` followed by a field write). -/
def alSet {α : Type} (k : Int) (v : α) (m : List (Int × α)) : List (Int × α) :=
  m.map (fun p => if p.1 = k then (k, v) else p)

/-- Iteration over values in key order (`BTreeMap::values`). -/
def alValues {α : Type} (m : List (Int × α)) : List α :=
  m.map Prod.snd

/-- The keys of the association list. -/
def alKeys {α : Type} (m : List (Int × α)) : List Int :=
  m.map Prod.fst

/-- Strictly-sorted-keys well-formedness, the `BTreeMap` invariant. -/
def alSorted {α : Type} (m : List (Int × α)) : Prop :=
  List.Pairwise (fun p q => p.1 < q.1) m

/-- Membership test in a `BTreeMap<Candidate, i32>` (`contains_key`). -/
def crContains (m : List (Candidate × Int)) (c : Candidate) : Bool :=
  m.any (fun p => p.1 == c)

/-- Ordered insert into a `BTreeMap<Candidate, i32>` keyed by the derived
`Candidate` ordering; also returns the previous value. -/
def crInsert (c : Candidate) (v : Int) : List (Candidate × Int) → List (Candidate × Int) × Option Int
  | [] => ([(c, v)], none)
  | (c', v') :: rest =>
    match cmpAttributes c.attrs c'.attrs with
    | .lt => ((c, v) :: (c', v') :: rest, none)
    | .eq => ((c, v) :: rest, some v')
    | .gt =>
      let r := crInsert c v rest
      ((c', v') :: r.1, r.2)

/-- Removal from a `BTreeMap<Candidate, i32>`; also returns the removed value. -/
def crRemove (c : Candidate) : List (Candidate × Int) → List (Candidate × Int) × Option Int
  | [] => ([], none)
  | (c', v') :: rest =>
    if c = c' then (rest, some v')
    else
      let r := crRemove c rest
      ((c', v') :: r.1, r.2)

/-- Stable insertion into a sorted list, ascending under `r`. -/
def insertOrd {α : Type} (r : α → α → Ordering) (x : α) : List α → List α
  | [] => [x]
  | y :: ys => if r x y = .gt then y :: insertOrd r x ys else x :: y :: ys

/-- Stable insertion sort, ascending under `r`: the embedding of the stable
`itertools::sorted_by`. -/
def isort {α : Type} (r : α → α → Ordering) : List α → List α
  | [] => []
  | x :: xs => insertOrd r x (isort r xs)

/-- Rust `Iterator::max_by_key` over the image of `key`: returns the last
maximal element of the list (later elements win ties). -/
def maxByKeyLast {α κ : Type} (key : α → κ) (le : κ → κ → Bool) (l : List α) : Option α :=
  l.foldl
    (fun acc x =>
      match acc with
      | none => some x
      | some m => if le (key m) (key x) then some x else some m)
    none

/-- The node table: `BTreeMap<Name, NodeState>`. -/
abbrev NodeTable := List (Int × NodeState)

/-- Embedding of `actions::InnerAction`. -/
structure InnerAction where
  our_attributes : Attributes
  our_section : SectionInfo
  our_current_nodes : NodeTable
  our_events : List Event
  shortestPfx : Option Section
  section_members : List (SectionInfo × List Node)
  next_target_interval : Int
  merge_infos : Option SectionInfo
  churn_needed : Option ChurnNeeded
  connected : List Int
  resource_proofs_for_elder : List (Int × ProofSource)
deriving DecidableEq, Repr

/-- Embedding of `InnerAction::new_with_our_attributes`. -/
def InnerAction.new_with_our_attributes (name : Attributes) : InnerAction :=
  { our_attributes := name
    our_section := ⟨0, 0⟩
    our_current_nodes := []
    our_events := []
    shortestPfx := none
    section_members := []
    next_target_interval := 0
    merge_infos := none
    churn_needed := none
    connected := []
    resource_proofs_for_elder := [] }

/-- Journal append, shared by every event-recording method. -/
def push (ia : InnerAction) (e : Event) : InnerAction :=
  { ia with our_events := ia.our_events ++ [e] }

/-- Embedding of `InnerAction::add_node`; `none` models the
`assert!(inserted.is_none())` abort on a duplicate name. -/
def InnerAction.add_node (ia : InnerAction) (ns : NodeState) : Option InnerAction :=
  let ia := push ia (NodeChange.AddWithState ns.node ns.state).to_event
  match alInsert ns.node.name ns ia.our_current_nodes with
  | (m, none) => some { ia with our_current_nodes := m }
  | (_, some _) => none

/-- Embedding of `InnerAction::remove_node`; `none` models the `unwrap!` abort
on a missing name. -/
def InnerAction.remove_node (ia : InnerAction) (name : Int) : Option InnerAction :=
  let ia := push ia (NodeChange.Remove name).to_event
  match alRemove name ia.our_current_nodes with
  | (m, some _) => some { ia with our_current_nodes := m }
  | (_, none) => none

/-- Embedding of `InnerAction::replace_node`; `none` models the
`assert!(removed.is_some() && inserted.is_none())` abort. -/
def InnerAction.replace_node (ia : InnerAction) (node_name : Int) (ns : NodeState) :
    Option InnerAction :=
  let ia := push ia (NodeChange.ReplaceWith node_name ns.node ns.state).to_event
  let r := alRemove node_name ia.our_current_nodes
  let i := alInsert ns.node.name ns r.1
  if r.2.isSome && i.2.isNone then some { ia with our_current_nodes := i.1 } else none

/-- Embedding of `InnerAction::set_node_state`; `none` models the `unwrap`
abort on a missing row. -/
def InnerAction.set_node_state (ia : InnerAction) (name : Int) (state : State) :
    Option InnerAction :=
  match alLookup name ia.our_current_nodes with
  | none => none
  | some ns =>
    let ia := { ia with our_current_nodes := alSet name { ns with state := state } ia.our_current_nodes }
    some (push ia (NodeChange.StateChange ns.node state).to_event)

/-- Embedding of `InnerAction::set_elder_state`; `none` models the `unwrap`
abort on a missing row. -/
def InnerAction.set_elder_state (ia : InnerAction) (name : Int) (value : Bool) :
    Option InnerAction :=
  match alLookup name ia.our_current_nodes with
  | none => none
  | some ns =>
    let ia := { ia with our_current_nodes := alSet name { ns with is_elder := value } ia.our_current_nodes }
    some (push ia (NodeChange.Elder ns.node value).to_event)

/-- Embedding of `InnerAction::set_section_info`. -/
def InnerAction.set_section_info (ia : InnerAction) (section_ : SectionInfo) : InnerAction :=
  push { ia with our_section := section_ } (ActionTriggered.OurSectionChanged section_).to_event

/-- Embedding of `InnerAction::store_merge_infos`. -/
def InnerAction.store_merge_infos (ia : InnerAction) (merge_info : SectionInfo) : InnerAction :=
  push { ia with merge_infos := some merge_info } (ActionTriggered.MergeInfoStored merge_info).to_event

/-- Embedding of `InnerAction::complete_merge`. -/
def InnerAction.complete_merge (ia : InnerAction) : InnerAction :=
  push ia ActionTriggered.CompleteMerge.to_event

/-- Embedding of `InnerAction::complete_split`. -/
def InnerAction.complete_split (ia : InnerAction) : InnerAction :=
  push ia ActionTriggered.CompleteSplit.to_event

/-! Embedding of the `Action` methods. `Action` is a shared `Rc<RefCell<InnerAction>>`;
in the single-threaded model every method is a function on `InnerAction`. -/

/-- Embedding of `Action::process_test_events`. -/
def process_test_events (ia : InnerAction) (event : TestEvent) : InnerAction :=
  match event with
  | .SetChurnNeeded churn => { ia with churn_needed := some churn }
  | .SetShortestPfx value => { ia with shortestPfx := value }
  | .SetWorkUnitEnoughToRelocate node =>
    match alLookup node.name ia.our_current_nodes with
    | none => ia
    | some ns =>
      let ns' := { ns with work_units_done := ns.node.attrs.age }
      { ia with our_current_nodes := alSet node.name ns' ia.our_current_nodes }
  | .SetResourceProof name proof =>
    { ia with resource_proofs_for_elder := (alInsert name proof ia.resource_proofs_for_elder).1 }

/-- Embedding of `Action::vote_parsec`. -/
def vote_parsec (ia : InnerAction) (vote : ParsecVote) : InnerAction :=
  push ia vote.to_event

/-- Embedding of `Action::send_rpc`. -/
def send_rpc (ia : InnerAction) (rpc : Rpc) : InnerAction :=
  push ia rpc.to_event

/-- Embedding of `Action::action_triggered`. -/
def action_triggered (ia : InnerAction) (event : ActionTriggered) : InnerAction :=
  push ia event.to_event

/-- Embedding of `Action::schedule_event`. -/
def schedule_event (ia : InnerAction) (event : LocalEvent) : InnerAction :=
  action_triggered ia (.Scheduled event)

/-- Embedding of `Action::add_node_waiting_candidate_info`: allocates the next
target interval, builds the ticket, inserts the waiting row; `none` models the
`add_node` abort when the target name is already taken. -/
def add_node_waiting_candidate_info (ia : InnerAction) (candidate : Candidate) :
    Option (RelocatedInfo × InnerAction) :=
  let target_interval_centre := ia.next_target_interval
  let ia := { ia with next_target_interval := ia.next_target_interval + 1 }
  let info : RelocatedInfo :=
    { candidate := candidate
      expected_age := candidate.attrs.age + 1
      target_interval_centre := target_interval_centre
      section_info := ia.our_section }
  let state : NodeState :=
    { NodeState.default with
        node := ⟨⟨info.expected_age, info.target_interval_centre⟩⟩
        state := .WaitingCandidateInfo info }
  match ia.add_node state with
  | some ia' => some (info, ia')
  | none => none

/-- Embedding of `Action::set_candidate_online_state`. -/
def set_candidate_online_state (ia : InnerAction) (candidate_name : Int)
    (new_public_id : Candidate) : Option InnerAction :=
  ia.replace_node candidate_name
    { NodeState.default with node := ⟨new_public_id.attrs⟩, state := .Online }

/-- Embedding of `Action::set_node_offline_state`. -/
def set_node_offline_state (ia : InnerAction) (node : Node) : Option InnerAction :=
  ia.set_node_state node.name .Offline

/-- Embedding of `Action::set_node_back_online_state`. -/
def set_node_back_online_state (ia : InnerAction) (node : Node) : Option InnerAction :=
  ia.set_node_state node.name .RelocatingBackOnline

/-- Embedding of `Action::set_candidate_relocating_state`. -/
def set_candidate_relocating_state (ia : InnerAction) (candidate : Candidate) :
    Option InnerAction :=
  ia.set_node_state candidate.name .RelocatingAgeIncrease

/-- Embedding of `Action::set_candidate_relocated_state`. -/
def set_candidate_relocated_state (ia : InnerAction) (info : RelocatedInfo) :
    Option InnerAction :=
  ia.set_node_state info.candidate.name (.Relocated info)

/-- Embedding of `Action::purge_node_info`. -/
def purge_node_info (ia : InnerAction) (name : Int) : Option InnerAction :=
  ia.remove_node name

/-- Embedding of `Action::check_shortest_prefix` (renamed, see header note). -/
def check_shortest_pfx (ia : InnerAction) : Option Section :=
  ia.shortestPfx

/-- The elder-selection comparator of `Action::check_elder`:
state ascending, then age descending, then name ascending. -/
def nodeElderCmp (l r : NodeState) : Ordering :=
  ((cmpState l.state r.state).then
    (cmpInt l.node.attrs.age r.node.attrs.age).swap).then
      (cmpInt l.node.attrs.name r.node.attrs.name)

/-- The `sorted_values` local of `Action::check_elder`: the members sorted by
the elder comparator. -/
def sortedMembers (ia : InnerAction) : List NodeState :=
  isort nodeElderCmp (alValues ia.our_current_nodes)

/-- The `elder_size` local of `Action::check_elder`: `min(3, n)`. -/
def elderSize (ia : InnerAction) : Nat :=
  min 3 (sortedMembers ia).length

/-- The `changes` local of `Action::check_elder`: gained elders paired with
`true`, then lost elders paired with `false`. -/
def elderChanges (ia : InnerAction) : List (Node × Bool) :=
  (((sortedMembers ia).take (elderSize ia)).filter (fun e => !e.is_elder)).map
      (fun e => (e.node, true))
    ++ (((sortedMembers ia).drop (elderSize ia)).filter (fun e => e.is_elder)).map
      (fun e => (e.node, false))

/-- Embedding of `Action::check_elder`. -/
def check_elder (ia : InnerAction) : Option ChangeElder :=
  if (elderChanges ia).isEmpty then none
  else
    some { changes := elderChanges ia
           new_section := ⟨ia.our_section.sec, ia.our_section.version + 1⟩ }

/-- Embedding of `Action::get_elder_change_votes`. -/
def get_elder_change_votes (change_elder : ChangeElder) : List ParsecVote :=
  change_elder.changes.map
    (fun p => if p.2 then ParsecVote.AddElderNode p.1 else ParsecVote.RemoveElderNode p.1)
    ++ [ParsecVote.NewSectionInfo change_elder.new_section]

/-- The elder-flag updates of `Action::mark_elder_change`, applied in order. -/
def applyElderChanges (ia : InnerAction) : List (Node × Bool) → Option InnerAction
  | [] => some ia
  | (node, new_is_elder) :: rest =>
    match ia.set_elder_state node.name new_is_elder with
    | none => none
    | some ia' => applyElderChanges ia' rest

/-- Embedding of `Action::mark_elder_change`. -/
def mark_elder_change (ia : InnerAction) (change_elder : ChangeElder) : Option InnerAction :=
  match applyElderChanges ia change_elder.changes with
  | none => none
  | some ia' => some (ia'.set_section_info change_elder.new_section)

/-- Embedding of `Action::get_section_split_votes`. -/
def get_section_split_votes (ia : InnerAction) : List ParsecVote :=
  [ParsecVote.NewSectionInfo ⟨ia.our_section.sec + 1, 0⟩,
   ParsecVote.NewSectionInfo ⟨ia.our_section.sec + 2, 0⟩]

/-- Embedding of `Action::get_node_to_relocate`. -/
def get_node_to_relocate (ia : InnerAction) : Option Candidate :=
  ((alValues ia.our_current_nodes).find?
    (fun state => state.state == .Online && state.work_units_done ≥ state.node.attrs.age)).map
    (fun state => ⟨state.node.attrs⟩)

/-- Embedding of `Action::has_relocating_node`. -/
def has_relocating_node (ia : InnerAction) : Bool :=
  (alValues ia.our_current_nodes).any (fun state => state.state == .RelocatingAgeIncrease)

/-- The relocation-selection key of `Action::get_best_relocating_node_and_target`. -/
def relocateKey (state : NodeState) : Bool × Bool × Bool × Int × Int :=
  (state.state == .RelocatingAgeIncrease,
   state.state == .RelocatingHop,
   state.state == .RelocatingBackOnline,
   state.node.attrs.age,
   state.node.attrs.name)

/-- Lexicographic comparison of the relocation-selection key (derived Rust
tuple ordering, `false < true` on booleans). -/
def relocateKeyCmp (a b : Bool × Bool × Bool × Int × Int) : Ordering :=
  (((cmpBool a.1 b.1).then (cmpBool a.2.1 b.2.1)).then
    ((cmpBool a.2.2.1 b.2.2.1).then (cmpInt a.2.2.2.1 b.2.2.2.1))).then
      (cmpInt a.2.2.2.2 b.2.2.2.2)

/-- Non-strict order on relocation-selection keys. -/
def relocateKeyLe (a b : Bool × Bool × Bool × Int × Int) : Bool :=
  relocateKeyCmp a b ≠ .gt

/-- The filter of `Action::get_best_relocating_node_and_target`: relocating,
not an elder, not already tracked. -/
def relocatingFilter (already_relocating : List (Candidate × Int)) (state : NodeState) : Bool :=
  !(crContains already_relocating ⟨state.node.attrs⟩)
    && (state.state.is_relocating && !state.is_elder)

/-- Embedding of `Action::get_best_relocating_node_and_target`. -/
def get_best_relocating_node_and_target (ia : InnerAction)
    (already_relocating : List (Candidate × Int)) : Option (Candidate × Section) :=
  ((alValues ia.our_current_nodes).filter (relocatingFilter already_relocating)
    |> maxByKeyLast relocateKey relocateKeyLe).map
    (fun state => (⟨state.node.attrs⟩, (0 : Section)))

/-- Embedding of `Action::is_our_relocating_node`. -/
def is_our_relocating_node (ia : InnerAction) (candidate : Candidate) : Bool :=
  match alLookup candidate.attrs.name ia.our_current_nodes with
  | some state => state.state.is_relocating
  | none => false

/-- Embedding of `Action::get_waiting_candidate_info`. -/
def get_waiting_candidate_info (ia : InnerAction) (candidate : Candidate) :
    Option RelocatedInfo :=
  ((alValues ia.our_current_nodes).filterMap (fun state => state.state.waiting_candidate_info)).find?
    (fun info => info.candidate == candidate)

/-- Embedding of `Action::count_waiting_proofing_or_hop`. -/
def count_waiting_proofing_or_hop (ia : InnerAction) : Nat :=
  ((alValues ia.our_current_nodes).filter (fun state => state.state.is_not_yet_full_node)).length

/-- Embedding of `Action::resource_proof_candidate`. -/
def resource_proof_candidate (ia : InnerAction) : Option (Int × Candidate) :=
  (ia.our_current_nodes.filterMap
    (fun p => (p.2.state.waiting_candidate_info).map (fun info => (p.1, info.old_public_id)))).head?

/-- Embedding of `Action::is_valid_waited_info`. -/
def is_valid_waited_info (ia : InnerAction) (info : CandidateInfo) : Bool :=
  if !info.valid then false
  else
    match alLookup info.waiting_candidate_name ia.our_current_nodes with
    | some state => state.state.waiting_candidate_info.isSome
    | none => false

/-- Embedding of `Action::our_name`. -/
def our_name (ia : InnerAction) : Int :=
  ia.our_attributes.name

/-- Embedding of `Action::send_node_approval_rpc`. -/
def send_node_approval_rpc (ia : InnerAction) (candidate : Candidate) : InnerAction :=
  send_rpc ia (.NodeApproval candidate ⟨ia.our_section⟩)

/-- Embedding of `Action::send_relocate_response_rpc`. -/
def send_relocate_response_rpc (ia : InnerAction) (info : RelocatedInfo) : InnerAction :=
  send_rpc ia (.RelocateResponse info)

/-- Embedding of `Action::send_candidate_proof_request`. -/
def send_candidate_proof_request (ia : InnerAction) (candidate : Candidate) : InnerAction :=
  send_rpc ia (.ResourceProof candidate (our_name ia) ⟨our_name ia⟩)

/-- Embedding of `Action::send_candidate_proof_receipt`. -/
def send_candidate_proof_receipt (ia : InnerAction) (candidate : Candidate) : InnerAction :=
  send_rpc ia (.ResourceProofReceipt candidate (our_name ia))

/-- Embedding of `Action::increment_nodes_work_units` (journal only). -/
def increment_nodes_work_units (ia : InnerAction) : InnerAction :=
  action_triggered ia .WorkUnitIncremented

/-- Embedding of `Action::has_merge_infos`. -/
def has_merge_infos (ia : InnerAction) : Bool :=
  ia.merge_infos.isSome

/-- Embedding of `Action::merge_needed`. -/
def merge_needed (ia : InnerAction) : Bool :=
  ia.churn_needed == some .Merge

/-- Embedding of `Action::split_needed`. -/
def split_needed (ia : InnerAction) : Bool :=
  ia.churn_needed == some .Split

/-- Embedding of `Action::has_sibling_merge_info` (arithmetic distance 1
between section tags). -/
def has_sibling_merge_info (ia : InnerAction) : Bool :=
  match ia.merge_infos with
  | some merge_info => (ia.our_section.sec - merge_info.sec).natAbs == 1
  | none => false

/-- Embedding of `Action::merge_sibling_info_to_new_section`: consumes the
stored merge info (`take`); `none` models the `expect` abort when absent. -/
def merge_sibling_info_to_new_section (ia : InnerAction) :
    Option (SectionInfo × InnerAction) :=
  match ia.merge_infos with
  | none => none
  | some their_section =>
    some (⟨ia.our_section.sec + their_section.sec + 1, 0⟩, { ia with merge_infos := none })

/-- Embedding of `Action::send_merge_rpc`. -/
def send_merge_rpc (ia : InnerAction) : InnerAction :=
  send_rpc ia (.Merge ia.our_section)

/-- Embedding of `state::ProcessElderChangeState`. -/
structure ProcessElderChangeState where
  is_active : Bool
  wait_votes : List ParsecVote
  change_elder : Option ChangeElder
deriving DecidableEq, Repr

/-- Embedding of `state::ProcessSplitState`. -/
structure ProcessSplitState where
  is_active : Bool
  wait_votes : List ParsecVote
deriving DecidableEq, Repr

/-- Embedding of `state::StartMergeSplitAndChangeEldersState`. -/
structure StartMergeSplitAndChangeEldersState where
  sub_routine_process_split : ProcessSplitState
  sub_routine_process_elder_change : ProcessElderChangeState
  sub_routine_process_merge_active : Bool
deriving DecidableEq, Repr

/-- Embedding of `state::StartResourceProofState`. -/
structure StartResourceProofState where
  candidate_info : Option CandidateInfo
  candidate : Option (Int × Candidate)
  voted_online : Bool
deriving DecidableEq, Repr

/-- Embedding of `state::StartRelocateSrcState`. -/
structure StartRelocateSrcState where
  already_relocating : List (Candidate × Int)
deriving DecidableEq, Repr

/-- Embedding of `state::StartRelocatedNodeConnectionState`. -/
structure StartRelocatedNodeConnectionState where
  candidates : List Int
  candidates_info : List (Int × CandidateInfo)
  candidates_voted : List Int
deriving DecidableEq, Repr

/-- Embedding of `state::MemberState`. -/
structure MemberState where
  action : InnerAction
  failure : Option Event
  start_resource_proof : StartResourceProofState
  start_relocated_node_connection_state : StartRelocatedNodeConnectionState
  start_relocate_src : StartRelocateSrcState
  start_merge_split_and_change_elders : StartMergeSplitAndChangeEldersState
deriving DecidableEq, Repr

/-- Embedding of `MemberState::default()`. -/
def MemberState.default : MemberState :=
  { action := InnerAction.new_with_our_attributes ⟨0, 0⟩
    failure := none
    start_resource_proof := ⟨none, none, false⟩
    start_relocated_node_connection_state := ⟨[], [], []⟩
    start_relocate_src := ⟨[]⟩
    start_merge_split_and_change_elders := ⟨⟨false, []⟩, ⟨false, [], none⟩, false⟩ }

/-- Result of offering an event to a sub-machine: `none` models a panic, and
otherwise the updated state is returned with `Handled` or `Unhandled`. -/
abbrev TryOutcome := Option (MemberState × TryResult)

/-- Lift an `InnerAction` update into a `MemberState` update. -/
def withAction (s : MemberState) (ia : InnerAction) : MemberState :=
  { s with action := ia }

/-- Lift a fallible `InnerAction` update into a fallible `MemberState` update. -/
def withActionOpt (s : MemberState) (ia : Option InnerAction) : Option MemberState :=
  ia.map (withAction s)

/-! Embedding of `flows_elder.rs`. -/

/-- Embedding of `CheckOnlineOffline::try_next`. -/
def CheckOnlineOffline.try_next (s : MemberState) (event : WaitedEvent) : TryOutcome :=
  match event with
  | .ParsecConsensus (.Offline node) =>
    (withActionOpt s (set_node_offline_state s.action node)).map (·, .Handled)
  | .ParsecConsensus (.BackOnline node) =>
    (withActionOpt s (set_node_back_online_state s.action node)).map (·, .Handled)
  | .ParsecConsensus _ => some (s, .Unhandled)
  | .LocalEvent (.NodeDetectedOffline node) =>
    some (withAction s (vote_parsec s.action (.Offline node)), .Handled)
  | .LocalEvent (.NodeDetectedBackOnline node) =>
    some (withAction s (vote_parsec s.action (.BackOnline node)), .Handled)
  | .LocalEvent _ => some (s, .Unhandled)
  | .Rpc _ => some (s, .Unhandled)

/-- Embedding of `StartMergeSplitAndChangeElders::start_check_elder_timeout`. -/
def start_check_elder_timeout (s : MemberState) : MemberState :=
  withAction s (schedule_event s.action .TimeoutCheckElder)

/-- Embedding of `ProcessMerge::check_sibling_merge_info`. -/
def ProcessMerge.check_sibling_merge_info (s : MemberState) : Option MemberState :=
  if has_sibling_merge_info s.action then
    match merge_sibling_info_to_new_section s.action with
    | none => none
    | some (new_section, ia) =>
      some (withAction s (vote_parsec ia (.NewSectionInfo new_section)))
  else some s

/-- Embedding of `ProcessMerge::start_event_loop`. -/
def ProcessMerge.start_event_loop (s : MemberState) : Option MemberState :=
  let s := { s with start_merge_split_and_change_elders :=
    { s.start_merge_split_and_change_elders with sub_routine_process_merge_active := true } }
  let s := withAction s (send_merge_rpc s.action)
  ProcessMerge.check_sibling_merge_info s

/-- Embedding of `ProcessMerge::exit_event_loop` (deactivate, then the parent
transition reschedules the elder timeout). -/
def ProcessMerge.exit_event_loop (s : MemberState) : MemberState :=
  let s := { s with start_merge_split_and_change_elders :=
    { s.start_merge_split_and_change_elders with sub_routine_process_merge_active := false } }
  start_check_elder_timeout s

/-- Embedding of `ProcessMerge::try_next`. -/
def ProcessMerge.try_next (s : MemberState) (event : WaitedEvent) : TryOutcome :=
  match event with
  | .ParsecConsensus (.NewSectionInfo _) =>
    let s := withAction s s.action.complete_merge
    some (ProcessMerge.exit_event_loop s, .Handled)
  | .ParsecConsensus (.NeighbourMerge merge_info) =>
    let s := withAction s (s.action.store_merge_infos merge_info)
    (ProcessMerge.check_sibling_merge_info s).map (·, .Handled)
  | .ParsecConsensus _ => some (s, .Unhandled)
  | .Rpc _ => some (s, .Unhandled)
  | .LocalEvent _ => some (s, .Unhandled)

/-- Embedding of `ProcessSplit::start_event_loop`. -/
def ProcessSplit.start_event_loop (s : MemberState) : MemberState :=
  let s := { s with start_merge_split_and_change_elders :=
    { s.start_merge_split_and_change_elders with
        sub_routine_process_split := { s.start_merge_split_and_change_elders.sub_routine_process_split with is_active := true } } }
  let votes := get_section_split_votes s.action
  let s := { s with start_merge_split_and_change_elders :=
    { s.start_merge_split_and_change_elders with
        sub_routine_process_split := { s.start_merge_split_and_change_elders.sub_routine_process_split with wait_votes := votes } } }
  withAction s (votes.foldl vote_parsec s.action)

/-- Embedding of `ProcessSplit::exit_event_loop`. -/
def ProcessSplit.exit_event_loop (s : MemberState) : MemberState :=
  let s := { s with start_merge_split_and_change_elders :=
    { s.start_merge_split_and_change_elders with
        sub_routine_process_split := { s.start_merge_split_and_change_elders.sub_routine_process_split with is_active := false } } }
  start_check_elder_timeout s

/-- Embedding of `ProcessSplit::try_next`. -/
def ProcessSplit.try_next (s : MemberState) (event : WaitedEvent) : TryOutcome :=
  match event with
  | .ParsecConsensus vote =>
    let ps := s.start_merge_split_and_change_elders.sub_routine_process_split
    if ps.wait_votes.contains vote then
      let wait_votes := ps.wait_votes.filter (fun wait_vote => wait_vote ≠ vote)
      let s := { s with start_merge_split_and_change_elders :=
        { s.start_merge_split_and_change_elders with
            sub_routine_process_split := { ps with wait_votes := wait_votes } } }
      if wait_votes.isEmpty then
        let s := withAction s s.action.complete_split
        some (ProcessSplit.exit_event_loop s, .Handled)
      else some (s, .Handled)
    else some (s, .Unhandled)
  | .Rpc _ => some (s, .Unhandled)
  | .LocalEvent _ => some (s, .Unhandled)

/-- Embedding of `ProcessElderChange::vote_for_elder_change`. -/
def ProcessElderChange.vote_for_elder_change (s : MemberState) (change_elder : ChangeElder) :
    MemberState :=
  let votes := get_elder_change_votes change_elder
  let s := { s with start_merge_split_and_change_elders :=
    { s.start_merge_split_and_change_elders with
        sub_routine_process_elder_change :=
          { s.start_merge_split_and_change_elders.sub_routine_process_elder_change with
              change_elder := some change_elder, wait_votes := votes } } }
  withAction s (votes.foldl vote_parsec s.action)

/-- Embedding of `ProcessElderChange::start_event_loop`. -/
def ProcessElderChange.start_event_loop (s : MemberState) (change_elder : ChangeElder) :
    MemberState :=
  let s := { s with start_merge_split_and_change_elders :=
    { s.start_merge_split_and_change_elders with
        sub_routine_process_elder_change :=
          { s.start_merge_split_and_change_elders.sub_routine_process_elder_change with
              is_active := true, change_elder := some change_elder } } }
  ProcessElderChange.vote_for_elder_change s change_elder

/-- Embedding of `ProcessElderChange::exit_event_loop`. -/
def ProcessElderChange.exit_event_loop (s : MemberState) : MemberState :=
  let s := { s with start_merge_split_and_change_elders :=
    { s.start_merge_split_and_change_elders with
        sub_routine_process_elder_change :=
          { s.start_merge_split_and_change_elders.sub_routine_process_elder_change with
              is_active := false, change_elder := none } } }
  start_check_elder_timeout s

/-- Embedding of `ProcessElderChange::mark_elder_change` (takes the stored
`change_elder`; `none` models the `unwrap!` abort when absent). -/
def ProcessElderChange.mark_elder_change_step (s : MemberState) : Option MemberState :=
  match s.start_merge_split_and_change_elders.sub_routine_process_elder_change.change_elder with
  | none => none
  | some change_elder =>
    let s := { s with start_merge_split_and_change_elders :=
      { s.start_merge_split_and_change_elders with
          sub_routine_process_elder_change :=
            { s.start_merge_split_and_change_elders.sub_routine_process_elder_change with
                change_elder := none } } }
    withActionOpt s (mark_elder_change s.action change_elder)

/-- Embedding of `ProcessElderChange::try_next`. -/
def ProcessElderChange.try_next (s : MemberState) (event : WaitedEvent) : TryOutcome :=
  match event with
  | .ParsecConsensus vote =>
    let pec := s.start_merge_split_and_change_elders.sub_routine_process_elder_change
    if pec.wait_votes.contains vote then
      let wait_votes := pec.wait_votes.filter (fun wait_vote => wait_vote ≠ vote)
      let s := { s with start_merge_split_and_change_elders :=
        { s.start_merge_split_and_change_elders with
            sub_routine_process_elder_change := { pec with wait_votes := wait_votes } } }
      if wait_votes.isEmpty then
        match ProcessElderChange.mark_elder_change_step s with
        | none => none
        | some s => some (ProcessElderChange.exit_event_loop s, .Handled)
      else some (s, .Handled)
    else some (s, .Unhandled)
  | .Rpc _ => some (s, .Unhandled)
  | .LocalEvent _ => some (s, .Unhandled)

/-- Embedding of `StartMergeSplitAndChangeElders::check_elder` (the flow step,
distinct from `Action::check_elder`). -/
def StartMergeSplitAndChangeElders.check_elder_flow (s : MemberState) : MemberState :=
  match check_elder s.action with
  | some change_elder => ProcessElderChange.start_event_loop s change_elder
  | none =>
    if split_needed s.action then ProcessSplit.start_event_loop s
    else start_check_elder_timeout s

/-- Embedding of `StartMergeSplitAndChangeElders::check_merge`. -/
def StartMergeSplitAndChangeElders.check_merge (s : MemberState) : Option MemberState :=
  if has_merge_infos s.action || merge_needed s.action then
    ProcessMerge.start_event_loop s
  else some (StartMergeSplitAndChangeElders.check_elder_flow s)

/-- Embedding of `StartMergeSplitAndChangeElders::try_next`. -/
def StartMergeSplitAndChangeElders.try_next (s : MemberState) (event : WaitedEvent) :
    TryOutcome :=
  match event with
  | .ParsecConsensus (.NeighbourMerge merge_info) =>
    some (withAction s (s.action.store_merge_infos merge_info), .Handled)
  | .ParsecConsensus .CheckElder =>
    (StartMergeSplitAndChangeElders.check_merge s).map (·, .Handled)
  | .ParsecConsensus _ => some (s, .Unhandled)
  | .Rpc (.Merge section_info) =>
    some (withAction s (vote_parsec s.action (.NeighbourMerge section_info)), .Handled)
  | .Rpc _ => some (s, .Unhandled)
  | .LocalEvent .TimeoutCheckElder =>
    some (withAction s (vote_parsec s.action .CheckElder), .Handled)
  | .LocalEvent _ => some (s, .Unhandled)

/-! Embedding of `flows_src.rs`. -/

/-- Embedding of `StartDecidesOnNodeToRelocate::check_get_node_to_relocate`. -/
def StartDecidesOnNodeToRelocate.check_get_node_to_relocate (s : MemberState) :
    Option MemberState :=
  if has_relocating_node s.action then some s
  else
    match get_node_to_relocate s.action with
    | some candidate => withActionOpt s (set_candidate_relocating_state s.action candidate)
    | none => some s

/-- Embedding of `StartDecidesOnNodeToRelocate::try_next`. -/
def StartDecidesOnNodeToRelocate.try_next (s : MemberState) (event : WaitedEvent) :
    TryOutcome :=
  match event with
  | .LocalEvent .TimeoutWorkUnit =>
    let s := withAction s (vote_parsec s.action .WorkUnitIncrement)
    some (withAction s (schedule_event s.action .TimeoutWorkUnit), .Handled)
  | .LocalEvent _ => some (s, .Unhandled)
  | .ParsecConsensus .WorkUnitIncrement =>
    let s := withAction s (increment_nodes_work_units s.action)
    (StartDecidesOnNodeToRelocate.check_get_node_to_relocate s).map (·, .Handled)
  | .ParsecConsensus _ => some (s, .Unhandled)
  | .Rpc _ => some (s, .Unhandled)

/-- Embedding of `StartRelocateSrc::check_need_relocate`; `none` models the
`assert!(inserted.is_none())` abort. -/
def StartRelocateSrc.check_need_relocate (s : MemberState) : Option MemberState :=
  match get_best_relocating_node_and_target s.action s.start_relocate_src.already_relocating with
  | some (candidate, _) =>
    let s := withAction s (send_rpc s.action (.ExpectCandidate candidate))
    let r := crInsert candidate 0 s.start_relocate_src.already_relocating
    if r.2.isSome then none
    else some { s with start_relocate_src := ⟨r.1⟩ }
  | none => some s

/-- Embedding of `StartRelocateSrc::update_wait_and_allow_resend`. -/
def StartRelocateSrc.update_wait_and_allow_resend (s : MemberState) : MemberState :=
  let aged := (s.start_relocate_src.already_relocating.map
    (fun p => (p.1, p.2 + 1))).filter (fun p => p.2 < 3)
  { s with start_relocate_src := ⟨aged⟩ }

/-- Embedding of `StartRelocateSrc::allow_resend`; `none` models the `unwrap!`
abort when the candidate is untracked. -/
def StartRelocateSrc.allow_resend (s : MemberState) (candidate : Candidate) :
    Option MemberState :=
  let r := crRemove candidate s.start_relocate_src.already_relocating
  match r.2 with
  | none => none
  | some _ => some { s with start_relocate_src := ⟨r.1⟩ }

/-- Embedding of `StartRelocateSrc::set_relocated_and_prepare_info`. -/
def StartRelocateSrc.set_relocated_and_prepare_info (s : MemberState) (info : RelocatedInfo) :
    Option MemberState :=
  match set_candidate_relocated_state s.action info with
  | none => none
  | some ia => some (withAction s (vote_parsec ia (.RelocatedInfoVote info)))

/-- Embedding of `StartRelocateSrc::check_is_our_relocating_node` for the
`RefuseCandidate` vote. -/
def StartRelocateSrc.on_refuse (s : MemberState) (candidate : Candidate) :
    Option MemberState :=
  if is_our_relocating_node s.action candidate then
    StartRelocateSrc.allow_resend s candidate
  else some s

/-- Embedding of `StartRelocateSrc::check_is_our_relocating_node` for the
`RelocateResponse` vote. -/
def StartRelocateSrc.on_relocate_response (s : MemberState) (info : RelocatedInfo) :
    Option MemberState :=
  if is_our_relocating_node s.action info.candidate then
    StartRelocateSrc.set_relocated_and_prepare_info s info
  else some s

/-- Embedding of `StartRelocateSrc::try_next`. -/
def StartRelocateSrc.try_next (s : MemberState) (event : WaitedEvent) : TryOutcome :=
  match event with
  | .LocalEvent .TimeoutCheckRelocate =>
    let s := withAction s (vote_parsec s.action .CheckRelocate)
    some (withAction s (schedule_event s.action .TimeoutCheckRelocate), .Handled)
  | .LocalEvent _ => some (s, .Unhandled)
  | .Rpc (.RefuseCandidate candidate) =>
    some (withAction s (vote_parsec s.action (.RefuseCandidate candidate)), .Handled)
  | .Rpc (.RelocateResponse info) =>
    some (withAction s (vote_parsec s.action (.RelocateResponse info)), .Handled)
  | .Rpc _ => some (s, .Unhandled)
  | .ParsecConsensus .CheckRelocate =>
    (StartRelocateSrc.check_need_relocate s).map
      (fun s => (StartRelocateSrc.update_wait_and_allow_resend s, .Handled))
  | .ParsecConsensus (.RefuseCandidate candidate) =>
    (StartRelocateSrc.on_refuse s candidate).map (·, .Handled)
  | .ParsecConsensus (.RelocateResponse info) =>
    (StartRelocateSrc.on_relocate_response s info).map (·, .Handled)
  | .ParsecConsensus (.RelocatedInfoVote info) =>
    let s := withAction s (send_rpc s.action (.RelocatedInfoRpc info))
    (withActionOpt s (purge_node_info s.action info.candidate.name)).map (·, .Handled)
  | .ParsecConsensus _ => some (s, .Unhandled)

/-! Embedding of `flows_dst.rs` (`RespondToRelocateRequests`). -/

/-- Embedding of `RespondToRelocateRequests::consensused_expect_candidate`:
a decision on `(get_waiting_candidate_info, count_waiting_proofing_or_hop)`. -/
def consensused_expect_candidate (ia : InnerAction) (candidate : Candidate) :
    Option InnerAction :=
  match get_waiting_candidate_info ia candidate, count_waiting_proofing_or_hop ia with
  | some info, _ => some (send_relocate_response_rpc ia info)
  | none, 0 =>
    match add_node_waiting_candidate_info ia candidate with
    | none => none
    | some (relocated_info, ia) => some (send_relocate_response_rpc ia relocated_info)
  | none, _ + 1 => some (send_rpc ia (.RefuseCandidate candidate))

/-- Embedding of `RespondToRelocateRequests::try_next`. -/
def RespondToRelocateRequests.try_next (s : MemberState) (event : WaitedEvent) : TryOutcome :=
  match event with
  | .Rpc (.ExpectCandidate candidate) =>
    some (withAction s (vote_parsec s.action (.ExpectCandidate candidate)), .Handled)
  | .Rpc _ => some (s, .Unhandled)
  | .ParsecConsensus (.ExpectCandidate candidate) =>
    (withActionOpt s (consensused_expect_candidate s.action candidate)).map (·, .Handled)
  | .ParsecConsensus _ => some (s, .Unhandled)
  | .LocalEvent _ => some (s, .Unhandled)

/-! Embedding of the destination resource-proof flow.

The copy of `StartResourceProof` in `src/flows_dst.rs` is a stale revision:
it reads a routine-state field (`got_candidate_info`) that
`state::StartResourceProofState` does not have, calls `ParsecVote::Online`
with one argument where `utilities.rs` declares two, and calls
`Action::set_candidate_online_state` with one argument where `actions.rs`
takes two. The final shape of this flow is therefore missing from `src/` and
is modelled from the spec below. -/

/-- Modelled from the spec: `StartResourceProof` final-revision routine reset
("clear sub-state, reschedule CheckResourceProofTimeout"); the stale
`src/flows_dst.rs` copy of `finish_resource_proof` does not match
`state::StartResourceProofState`. -/
def StartResourceProof.finish_resource_proof (s : MemberState) : MemberState :=
  let s := { s with start_resource_proof := ⟨none, none, false⟩ }
  withAction s (schedule_event s.action .CheckResourceProofTimeout)

/-- Modelled from the spec: handling of `Rpc::CandidateInfo` — "accept iff
current candidate matches `info.old_public_id` and `is_valid_waited_info(info)`.
On accept: cache, send `ResourceProof`"; otherwise discard. -/
def StartResourceProof.rpc_info (s : MemberState) (info : CandidateInfo) : MemberState :=
  let matches_candidate :=
    match s.start_resource_proof.candidate with
    | some (_, old_id) => old_id == info.old_public_id
    | none => false
  if matches_candidate && is_valid_waited_info s.action info then
    let s := { s with start_resource_proof :=
      { s.start_resource_proof with candidate_info := some info } }
    withAction s (send_candidate_proof_request s.action info.new_public_id)
  else s

/-- Modelled from the spec: handling of `Rpc::ResourceProofResponse` — "accept
iff candidate matches the cached new_public_id, proof is valid, and not yet
voted_online. On ValidEnd: set voted_online, vote Online(old_id, new_id);
always send a ResourceProofReceipt back". -/
def StartResourceProof.rpc_proof (s : MemberState) (candidate : Candidate) (proof : Proof) :
    MemberState :=
  let from_candidate :=
    match s.start_resource_proof.candidate_info with
    | some info => info.new_public_id == candidate
    | none => false
  if from_candidate && (!s.start_resource_proof.voted_online && proof.is_valid) then
    let s :=
      if proof == .ValidEnd then
        let s := { s with start_resource_proof :=
          { s.start_resource_proof with voted_online := true } }
        match s.start_resource_proof.candidate, s.start_resource_proof.candidate_info with
        | some (_, old_id), some info =>
          withAction s (vote_parsec s.action (.Online old_id info.new_public_id))
        | _, _ => s
      else s
    withAction s (send_candidate_proof_receipt s.action candidate)
  else s

/-- Modelled from the spec: consensus `Online(old, new)` for the current
candidate — `set_candidate_online_state(waiting_name, new)`, send
`NodeApproval(new)`, clear sub-state, reschedule. -/
def StartResourceProof.make_node_online (s : MemberState) (waiting_name : Int)
    (new_id : Candidate) : Option MemberState :=
  match set_candidate_online_state s.action waiting_name new_id with
  | none => none
  | some ia =>
    let s := withAction s (send_node_approval_rpc ia new_id)
    some (StartResourceProof.finish_resource_proof s)

/-- Modelled from the spec: the final-revision `StartResourceProof::try_next`
(the stale `src/flows_dst.rs` copy does not type-check against
`state.rs`/`utilities.rs`/`actions.rs`). -/
def StartResourceProof.try_next (s : MemberState) (event : WaitedEvent) : TryOutcome :=
  match event with
  | .Rpc (.ResourceProofResponse candidate _ proof) =>
    some (StartResourceProof.rpc_proof s candidate proof, .Handled)
  | .Rpc (.CandidateInfoRpc info) =>
    some (StartResourceProof.rpc_info s info, .Handled)
  | .Rpc _ => some (s, .Unhandled)
  | .ParsecConsensus .CheckResourceProof =>
    let s := { s with start_resource_proof :=
      { s.start_resource_proof with candidate := resource_proof_candidate s.action } }
    if (resource_proof_candidate s.action).isSome then
      some (withAction s (schedule_event s.action .TimeoutAccept), .Handled)
    else
      some (StartResourceProof.finish_resource_proof s, .Handled)
  | .ParsecConsensus (.Online old_id new_id) =>
    (match s.start_resource_proof.candidate with
     | some (waiting_name, current_old) =>
       if current_old == old_id then
         (StartResourceProof.make_node_online s waiting_name new_id).map (·, .Handled)
       else some (s, .Handled)
     | none => some (s, .Handled))
  | .ParsecConsensus (.PurgeCandidate old_id) =>
    (match s.start_resource_proof.candidate with
     | some (waiting_name, current_old) =>
       if current_old == old_id then
         match purge_node_info s.action waiting_name with
         | none => none
         | some ia => some (StartResourceProof.finish_resource_proof (withAction s ia), .Handled)
       else some (s, .Handled)
     | none => some (s, .Handled))
  | .ParsecConsensus _ => some (s, .Unhandled)
  | .LocalEvent .TimeoutAccept =>
    (match s.start_resource_proof.candidate with
     | some (_, old_id) =>
       some (withAction s (vote_parsec s.action (.PurgeCandidate old_id)), .Handled)
     | none => none)
  | .LocalEvent .CheckResourceProofTimeout =>
    some (withAction s (vote_parsec s.action .CheckResourceProof), .Handled)
  | .LocalEvent _ => some (s, .Unhandled)

/-! Embedding of `state::MemberState::try_next`. -/

/-- Chaining of sub-machine offers: stop on a panic or on `Handled`, continue
with the (unchanged-by-convention) state on `Unhandled`. -/
def orElseTry (r : TryOutcome) (k : MemberState → TryOutcome) : TryOutcome :=
  match r with
  | none => none
  | some (s, .Handled) => some (s, .Handled)
  | some (s, .Unhandled) => k s

/-- The guarded offer to `ProcessSplit` (only when its routine is active). -/
def ProcessSplit.try_next_guarded (s : MemberState) (event : WaitedEvent) : TryOutcome :=
  if s.start_merge_split_and_change_elders.sub_routine_process_split.is_active then
    ProcessSplit.try_next s event
  else some (s, .Unhandled)

/-- The guarded offer to `ProcessMerge` (only when its routine is active). -/
def ProcessMerge.try_next_guarded (s : MemberState) (event : WaitedEvent) : TryOutcome :=
  if s.start_merge_split_and_change_elders.sub_routine_process_merge_active then
    ProcessMerge.try_next s event
  else some (s, .Unhandled)

/-- The guarded offer to `ProcessElderChange` (only when its routine is active). -/
def ProcessElderChange.try_next_guarded (s : MemberState) (event : WaitedEvent) : TryOutcome :=
  if s.start_merge_split_and_change_elders.sub_routine_process_elder_change.is_active then
    ProcessElderChange.try_next s event
  else some (s, .Unhandled)

/-- The fallback dispatch at the end of `MemberState::try_next`. -/
def fallbackDispatch (s : MemberState) (event : WaitedEvent) : TryOutcome :=
  match event with
  | .Rpc (.ConnectionInfoResponse _ _ _) =>
    some (withAction s (action_triggered s.action .NotYetImplementedErrorTriggered), .Handled)
  | .ParsecConsensus (.RemoveElderNode _) =>
    some (withAction s (action_triggered s.action .UnexpectedEventErrorTriggered), .Handled)
  | .ParsecConsensus (.AddElderNode _) =>
    some (withAction s (action_triggered s.action .UnexpectedEventErrorTriggered), .Handled)
  | .ParsecConsensus (.NewSectionInfo _) =>
    some (withAction s (action_triggered s.action .UnexpectedEventErrorTriggered), .Handled)
  | _ => some (s, .Unhandled)

/-- The waited-event part of `MemberState::try_next`: the sub-machines are
offered the event in source order, then the fallback runs. -/
def MemberState.try_next_waited (s : MemberState) (event : WaitedEvent) : TryOutcome :=
  orElseTry (CheckOnlineOffline.try_next s event) (fun s =>
    orElseTry (ProcessSplit.try_next_guarded s event) (fun s =>
      orElseTry (ProcessMerge.try_next_guarded s event) (fun s =>
        orElseTry (ProcessElderChange.try_next_guarded s event) (fun s =>
          orElseTry (StartMergeSplitAndChangeElders.try_next s event) (fun s =>
            orElseTry (StartRelocateSrc.try_next s event) (fun s =>
              orElseTry (StartDecidesOnNodeToRelocate.try_next s event) (fun s =>
                orElseTry (StartResourceProof.try_next s event) (fun s =>
                  orElseTry (RespondToRelocateRequests.try_next s event)
                    (fun s => fallbackDispatch s event)))))))))

/-- Embedding of `MemberState::try_next`; `none` models the `unwrap!` abort on
an event with no waited form. -/
def MemberState.try_next (s : MemberState) (event : Event) : TryOutcome :=
  match event.to_test_event with
  | some test_event => some (withAction s (process_test_events s.action test_event), .Handled)
  | none =>
    match event.to_waited_event with
    | none => none
    | some waited => MemberState.try_next_waited s waited

/-! Derived notions used by the verification statements. -/

/-- The proof-stream counter after `k` calls to `ProofSource::next_part`. -/
def psAfterCalls (s : ProofSource) : Nat → ProofSource
  | 0 => s
  | k + 1 => (ProofSource.next_part (psAfterCalls s k)).2

/-- The proof produced by call number `k + 1` to `ProofSource::next_part`. -/
def psCallResult (s : ProofSource) (k : Nat) : Option Proof :=
  (ProofSource.next_part (psAfterCalls s k)).1

/-- The events appended to the journal between two `InnerAction` snapshots. -/
def evAppended (a b : InnerAction) : List Event :=
  b.our_events.drop a.our_events.length

/-- The `StartRelocateSrc` tracking-map ageing: every count is incremented and
entries reaching 3 are dropped (the body of `update_wait_and_allow_resend`). -/
def agedTracking (m : List (Candidate × Int)) : List (Candidate × Int) :=
  (m.map (fun p => (p.1, p.2 + 1))).filter (fun p => p.2 < 3)

/-- The sub-machines of `MemberState::try_next` in their dispatch priority
order (active-flag guards included for the three `Process*` routines). -/
def subMachinesInOrder : List (MemberState → WaitedEvent → TryOutcome) :=
  [CheckOnlineOffline.try_next,
   ProcessSplit.try_next_guarded,
   ProcessMerge.try_next_guarded,
   ProcessElderChange.try_next_guarded,
   StartMergeSplitAndChangeElders.try_next,
   StartRelocateSrc.try_next,
   StartDecidesOnNodeToRelocate.try_next,
   StartResourceProof.try_next,
   RespondToRelocateRequests.try_next]

/-- Offer a waited event to the sub-machines in priority order: the first
`Handled` wins. -/
def offerInOrder (s : MemberState) (event : WaitedEvent) : TryOutcome :=
  subMachinesInOrder.foldl (fun acc f => orElseTry acc (fun s => f s event)) (some (s, .Unhandled))

/-- The waited events consumed by the fallback dispatch. -/
def fallbackCatches : WaitedEvent → Bool
  | .Rpc (.ConnectionInfoResponse _ _ _) => true
  | .ParsecConsensus (.RemoveElderNode _) => true
  | .ParsecConsensus (.AddElderNode _) => true
  | .ParsecConsensus (.NewSectionInfo _) => true
  | _ => false

/-- Pending-elder-change invariant: a stored `ChangeElder` ticket always
targets the successor of the current section version (true of every run, since
tickets are minted by `check_elder`). -/
def verPendingInv (s : MemberState) : Prop :=
  ∀ ce, s.start_merge_split_and_change_elders.sub_routine_process_elder_change.change_elder
      = some ce →
    ce.new_section.version = s.action.our_section.version + 1

/-- Per-step work-unit monotonicity: a row surviving under the same name either
keeps at least its work count or was rebuilt from scratch (count 0), provided
its work count did not exceed its age. -/
def workStep (a b : InnerAction) : Prop :=
  ∀ n ns ns', alLookup n a.our_current_nodes = some ns →
    alLookup n b.our_current_nodes = some ns' →
    ns.work_units_done ≤ ns.node.attrs.age →
    ns.work_units_done ≤ ns'.work_units_done ∨ ns'.work_units_done = 0

/-- The three monotonicity facts of one dispatch step. -/
def C7Rel (s s' : MemberState) : Prop :=
  s.action.next_target_interval ≤ s'.action.next_target_interval
  ∧ (verPendingInv s →
      s.action.our_section.version ≤ s'.action.our_section.version ∧ verPendingInv s')
  ∧ workStep s.action s'.action

/-- Table equivalence up to `state`/`is_elder` flags: every lookup yields the
same work count and node identity. -/
def tableWorkPreserved (a b : NodeTable) : Prop :=
  ∀ x, (alLookup x b).map (fun ns => (ns.work_units_done, ns.node))
     = (alLookup x a).map (fun ns => (ns.work_units_done, ns.node))

/-- Comparator laws (antisymmetric swap, transitive strict order, congruence
of the `eq` result) enjoyed by the derived Rust orderings. -/
structure CmpOk {γ : Type} (c : γ → γ → Ordering) : Prop where
  swap_eq : ∀ a b, c a b = (c b a).swap
  lt_trans : ∀ a b d, c a b = .lt → c b d = .lt → c a d = .lt
  eq_substL : ∀ a b d, c a b = .eq → c a d = c b d

/-! Concrete states used by witnesses and counterexamples. -/

/-- Total step helper: the state after an event (unchanged on a panic). -/
def stepState (s : MemberState) (e : Event) : MemberState :=
  match MemberState.try_next s e with
  | some (s', _) => s'
  | none => s

/-- The literal candidate `1001@9` of the scenario tests. -/
def candOld1 : Candidate := ⟨⟨9, 1001⟩⟩

/-- The literal candidate `1002@9` of the scenario tests. -/
def candOld2 : Candidate := ⟨⟨9, 1002⟩⟩

/-- State after consensus `ExpectCandidate(1001@9)` from the default state. -/
def c5state1 : MemberState :=
  stepState MemberState.default (ParsecVote.ExpectCandidate candOld1).to_event

/-- State after a further consensus `ExpectCandidate(1002@9)`. -/
def c5state2 : MemberState :=
  stepState c5state1 (ParsecVote.ExpectCandidate candOld2).to_event

/-- State after a second consensus `ExpectCandidate(1002@9)`. -/
def c5state3 : MemberState :=
  stepState c5state2 (ParsecVote.ExpectCandidate candOld2).to_event

/-- State after the test event `SetShortestPrefix(Some(Section(1)))` from the
default state. -/
def c3state0 : MemberState :=
  stepState MemberState.default (TestEvent.SetShortestPfx (some 1)).to_event

/-- State after consensus `ExpectCandidate(1001@9)` with a shortest-prefix
neighbour set. -/
def c3state1 : MemberState :=
  stepState c3state0 (ParsecVote.ExpectCandidate candOld1).to_event

/-- A table with a single online adult (name 5, age 10), not yet flagged elder. -/
def exampleOneAdult : InnerAction :=
  { InnerAction.new_with_our_attributes ⟨0, 0⟩ with
      our_current_nodes :=
        [(5, { node := ⟨⟨10, 5⟩⟩, work_units_done := 0, is_elder := false, state := .Online })] }

/-- A row whose work count (1) exceeds its age (0). -/
def c7BadRow : NodeState :=
  { node := ⟨⟨0, 4⟩⟩, work_units_done := 1, is_elder := false, state := .Online }

/-- A member state holding `c7BadRow`. -/
def c7BadState : MemberState :=
  { MemberState.default with action :=
      { MemberState.default.action with our_current_nodes := [(4, c7BadRow)] } }

/-- A table with a single relocating non-elder adult (name 7, age 20). -/
def c8ExState : MemberState :=
  { MemberState.default with action :=
      { MemberState.default.action with our_current_nodes :=
          [(7, { node := ⟨⟨20, 7⟩⟩, work_units_done := 0, is_elder := false,
                 state := .RelocatingAgeIncrease })] } }

/-- The fold step of `maxByKeyLast` at the relocation-selection key. -/
def rkStep (acc : Option NodeState) (x : NodeState) : Option NodeState :=
  match acc with
  | none => some x
  | some m => if relocateKeyLe (relocateKey m) (relocateKey x) then some x else some m

/-- The state reached from `c8ExState` by consensus `CheckRelocate`. -/
def c8OutState : MemberState :=
  { c8ExState with
      action := send_rpc c8ExState.action (.ExpectCandidate ⟨⟨20, 7⟩⟩)
      start_relocate_src := ⟨[(⟨⟨20, 7⟩⟩, 1)]⟩ }

/-- A table holding one `WaitingCandidateInfo` ticket for `1001@9` at the
target name 0. -/
def c4TicketState : InnerAction :=
  { InnerAction.new_with_our_attributes ⟨0, 0⟩ with
      our_current_nodes :=
        [(0, { node := ⟨⟨10, 0⟩⟩, work_units_done := 0, is_elder := false,
               state := .WaitingCandidateInfo ⟨candOld1, 10, 0, ⟨0, 0⟩⟩ })]
      next_target_interval := 1 }

/-- First re-admission step on the ticket-holding table. -/
def c5wState1 : InnerAction :=
  (consensused_expect_candidate c4TicketState candOld1).getD c4TicketState

/-- Second re-admission step on the ticket-holding table. -/
def c5wState2 : InnerAction :=
  (consensused_expect_candidate c5wState1 candOld1).getD c5wState1

/-! General lemmas about the association-list map model. -/

theorem alRemove_snd {α : Type} (k : Int) (m : List (Int × α)) :
    (alRemove k m).2 = alLookup k m := by
  induction m with
  | nil => simp [alRemove, alLookup]
  | cons p rest ih =>
    obtain ⟨k', v'⟩ := p
    by_cases h : k = k' <;> simp [alRemove, alLookup, h, ih]

theorem alLookup_eq_none_of_forall {α : Type} {k : Int} {m : List (Int × α)}
    (h : ∀ p ∈ m, p.1 ≠ k) : alLookup k m = none := by
  induction m with
  | nil => simp [alLookup]
  | cons p rest ih =>
    obtain ⟨k', v'⟩ := p
    have h1 : k' ≠ k := h (k', v') (by simp)
    have h2 : ∀ q ∈ rest, q.1 ≠ k := fun q hq => h q (by simp [hq])
    rw [alLookup, if_neg (Ne.symm h1)]
    exact ih h2

theorem alInsert_snd {α : Type} {k : Int} {v : α} {m : List (Int × α)}
    (hs : alSorted m) : (alInsert k v m).2 = alLookup k m := by
  induction m with
  | nil => simp [alInsert, alLookup]
  | cons p rest ih =>
    obtain ⟨k', v'⟩ := p
    rw [alSorted, List.pairwise_cons] at hs
    by_cases hlt : k < k'
    · have hnone : alLookup k ((k', v') :: rest) = none := by
        apply alLookup_eq_none_of_forall
        intro q hq
        rcases List.mem_cons.mp hq with h | h
        · subst h; simp; omega
        · have := hs.1 q h; simp at this ⊢; omega
      simp [alInsert, hlt, hnone]
    · by_cases heq : k = k'
      · simp [alInsert, hlt, heq, alLookup]
      · simp [alInsert, hlt, heq, alLookup, ih hs.2]

theorem alLookup_alInsert {α : Type} (k x : Int) (v : α) (m : List (Int × α)) :
    alLookup x (alInsert k v m).1 = if x = k then some v else alLookup x m := by
  induction m with
  | nil => simp [alInsert, alLookup]
  | cons p rest ih =>
    obtain ⟨k', v'⟩ := p
    by_cases hlt : k < k'
    · simp [alInsert, hlt, alLookup]
    · by_cases heq : k = k'
      · subst heq
        by_cases hx : x = k <;> simp [alInsert, hlt, alLookup, hx]
      · have hstep : (alInsert k v ((k', v') :: rest)).1 = (k', v') :: (alInsert k v rest).1 := by
          rw [alInsert]
          simp [hlt, heq]
        rw [hstep]
        by_cases hx : x = k'
        · subst hx
          rw [alLookup, if_pos rfl, if_neg (fun e => heq e.symm), alLookup, if_pos rfl]
        · rw [alLookup, if_neg hx, ih]
          by_cases hx2 : x = k
          · rw [if_pos hx2, if_pos hx2]
          · rw [if_neg hx2, if_neg hx2, alLookup, if_neg hx]

theorem alLookup_alRemove {α : Type} {k x : Int} {m : List (Int × α)}
    (hs : alSorted m) :
    alLookup x (alRemove k m).1 = if x = k then none else alLookup x m := by
  induction m with
  | nil => simp [alRemove, alLookup]
  | cons p rest ih =>
    obtain ⟨k', v'⟩ := p
    rw [alSorted, List.pairwise_cons] at hs
    by_cases heq : k = k'
    · have hstep : (alRemove k ((k', v') :: rest)).1 = rest := by
        rw [alRemove]; simp [heq]
      rw [hstep]
      subst heq
      by_cases hx : x = k
      · subst hx
        rw [if_pos rfl]
        apply alLookup_eq_none_of_forall
        intro q hq
        have := hs.1 q hq
        simp only at this
        omega
      · rw [if_neg hx, alLookup, if_neg hx]
    · have hstep : (alRemove k ((k', v') :: rest)).1 = (k', v') :: (alRemove k rest).1 := by
        rw [alRemove]; simp [heq]
      rw [hstep]
      by_cases hx : x = k'
      · subst hx
        rw [alLookup, if_pos rfl, if_neg (fun e => heq e.symm), alLookup, if_pos rfl]
      · rw [alLookup, if_neg hx, ih hs.2]
        by_cases hx2 : x = k
        · rw [if_pos hx2, if_pos hx2]
        · rw [if_neg hx2, if_neg hx2, alLookup, if_neg hx]

theorem alLookup_alSet {α : Type} (k x : Int) (v : α) (m : List (Int × α)) :
    alLookup x (alSet k v m) =
      if x = k then (alLookup k m).map (fun _ => v) else alLookup x m := by
  induction m with
  | nil => simp [alSet, alLookup]
  | cons p rest ih =>
    obtain ⟨k', v'⟩ := p
    have hstep : alSet k v ((k', v') :: rest) =
        (if k' = k then (k, v) else (k', v')) :: alSet k v rest := by
      simp [alSet]
    rw [hstep]
    by_cases hk : k' = k
    · rw [if_pos hk]
      by_cases hx : x = k
      · rw [alLookup, if_pos hx, if_pos hx, alLookup, if_pos hk.symm]
        simp
      · rw [alLookup, if_neg hx, if_neg hx, alLookup, if_neg (fun e => hx (e.trans hk)), ih,
          if_neg hx]
    · rw [if_neg hk]
      by_cases hx : x = k'
      · subst hx
        rw [alLookup, if_pos rfl, if_neg hk, alLookup, if_pos rfl]
      · rw [alLookup, if_neg hx, ih]
        by_cases hx2 : x = k
        · rw [if_pos hx2, if_pos hx2]
          subst hx2
          rw [alLookup, if_neg hx]
        · rw [if_neg hx2, if_neg hx2, alLookup, if_neg hx]

theorem alInsert_split {α : Type} {k : Int} {v : α} {m : List (Int × α)}
    (h : (alInsert k v m).2 = none) :
    ∃ l1 l2, m = l1 ++ l2 ∧ (alInsert k v m).1 = l1 ++ (k, v) :: l2 := by
  induction m with
  | nil => exact ⟨[], [], by simp [alInsert]⟩
  | cons p rest ih =>
    obtain ⟨k', v'⟩ := p
    by_cases hlt : k < k'
    · exact ⟨[], (k', v') :: rest, by simp [alInsert, hlt]⟩
    · by_cases heq : k = k'
      · simp [alInsert, hlt, heq] at h
      · simp only [alInsert, if_neg hlt, if_neg heq] at h ⊢
        obtain ⟨l1, l2, hm, hi⟩ := ih h
        exact ⟨(k', v') :: l1, l2, by simp [hm], by simp [hi]⟩

/-! Claim C6: `ProofSource::next_part` stream semantics. -/

theorem next_part_closed (c : Int) :
    ProofSource.next_part ⟨c⟩ =
      (if 1 < c then some Proof.ValidPart else if c = 1 then some Proof.ValidEnd else none,
       ⟨if -1 < c then c - 1 else c⟩) := by
  simp only [ProofSource.next_part, ProofSource.resend]
  split_ifs <;> simp_all <;> omega

theorem psAfterCalls_closed (n : Int) (hn : 0 ≤ n) (k : Nat) :
    psAfterCalls ⟨n⟩ k = ⟨if (k : Int) ≤ n then n - k else -1⟩ := by
  induction k with
  | zero =>
    simp [psAfterCalls]
    omega
  | succ k ih =>
    rw [psAfterCalls, ih, next_part_closed]
    simp only [ProofSource.mk.injEq]
    split_ifs <;> simp_all <;> omega

/-- C6 (counterexample): the claim says a counter `c > 0` yields `ValidPart`,
but a counter of 1 yields `ValidEnd` (the counter is decremented before the
check). -/
theorem c6_counterexample :
    (1 : Int) > 0
    ∧ (ProofSource.next_part ⟨1⟩).1 ≠ some Proof.ValidPart
    ∧ ProofSource.next_part ⟨1⟩ = (some Proof.ValidEnd, ⟨0⟩) := by
  refine ⟨by norm_num, ?_, ?_⟩ <;> decide

/-- C6 (amended): `next_part` decrements first (when the counter is above −1)
and then reports on the decremented counter: `ValidPart` for `c > 1`,
`ValidEnd` for `c = 1`, `none` for `c ≤ 0`; consequently a source initialised
to `n ≥ 1` yields `n − 1` `ValidPart`s, then one `ValidEnd`, then `none` on
every later call. -/
theorem c6_next_part_stream :
    (∀ c : Int,
      (c > 1 → ProofSource.next_part ⟨c⟩ = (some Proof.ValidPart, ⟨c - 1⟩))
      ∧ (c = 1 → ProofSource.next_part ⟨c⟩ = (some Proof.ValidEnd, ⟨0⟩))
      ∧ (c = 0 → ProofSource.next_part ⟨c⟩ = (none, ⟨-1⟩))
      ∧ (c < 0 → ProofSource.next_part ⟨c⟩ = (none, ⟨c⟩)))
    ∧ (∀ n k : Nat, 1 ≤ n →
        (k + 1 < n → psCallResult ⟨(n : Int)⟩ k = some Proof.ValidPart)
        ∧ (k + 1 = n → psCallResult ⟨(n : Int)⟩ k = some Proof.ValidEnd)
        ∧ (n < k + 1 → psCallResult ⟨(n : Int)⟩ k = none)) := by
  constructor
  · intro c
    refine ⟨?_, ?_, ?_, ?_⟩ <;> intro hc <;> rw [next_part_closed] <;>
      simp only [Prod.mk.injEq, ProofSource.mk.injEq] <;>
        split_ifs <;> simp_all <;> omega
  · intro n k hn
    have hres : psCallResult ⟨(n : Int)⟩ k =
        (ProofSource.next_part ⟨if (k : Int) ≤ n then (n : Int) - k else -1⟩).1 := by
      rw [psCallResult, psAfterCalls_closed _ (by positivity)]
    refine ⟨?_, ?_, ?_⟩ <;> intro hk <;>
      rw [hres] <;> split_ifs <;> rw [next_part_closed] <;>
        simp only [] <;> split_ifs <;> simp_all <;> omega

/-- C6 (witness for the amended theorem): counters 2, then the third and sixth
calls of a source initialised to 3. -/
theorem c6_witness :
    ProofSource.next_part ⟨2⟩ = (some Proof.ValidPart, ⟨1⟩)
    ∧ psCallResult ⟨3⟩ 2 = some Proof.ValidEnd
    ∧ psCallResult ⟨3⟩ 5 = none :=
  ⟨(c6_next_part_stream.1 2).1 (by norm_num),
   (c6_next_part_stream.2 3 2 (by norm_num)).2.1 (by norm_num),
   (c6_next_part_stream.2 3 5 (by norm_num)).2.2 (by norm_num)⟩

/-! Claim C9: the node-table primitives abort (model: return `none`) exactly
when their preconditions are violated. -/

theorem alRemove_sublist {α : Type} (k : Int) (m : List (Int × α)) :
    (alRemove k m).1.Sublist m := by
  induction m with
  | nil => simp [alRemove]
  | cons p rest ih =>
    obtain ⟨k', v'⟩ := p
    by_cases h : k = k'
    · simp [alRemove, h]
    · simp only [alRemove, if_neg h]
      exact List.Sublist.cons₂ _ ih

theorem alSorted_alRemove {α : Type} {k : Int} {m : List (Int × α)}
    (hs : alSorted m) : alSorted (alRemove k m).1 :=
  List.Pairwise.sublist (alRemove_sublist k m) hs

/-- C9: `add_node` aborts exactly on a duplicate name, `remove_node` exactly on
a missing name, `replace_node` unless it removes an existing row and inserts a
fresh (or same-named) one, and the two state setters exactly on a missing row;
under the preconditions the aborting branch is unreachable. -/
theorem c9_table_primitives (ia : InnerAction) (ns : NodeState) (name : Int)
    (st : State) (b : Bool) (hs : alSorted ia.our_current_nodes) :
    (ia.add_node ns = none ↔ (alLookup ns.node.name ia.our_current_nodes).isSome)
    ∧ (ia.remove_node name = none ↔ alLookup name ia.our_current_nodes = none)
    ∧ (ia.replace_node name ns = none ↔
        ¬((alLookup name ia.our_current_nodes).isSome
          ∧ (ns.node.name = name ∨ alLookup ns.node.name ia.our_current_nodes = none)))
    ∧ (ia.set_node_state name st = none ↔ alLookup name ia.our_current_nodes = none)
    ∧ (ia.set_elder_state name b = none ↔ alLookup name ia.our_current_nodes = none) := by
  refine ⟨?_, ?_, ?_, ?_, ?_⟩
  · have hsnd : (alInsert ns.node.name ns ia.our_current_nodes).2
        = alLookup ns.node.name ia.our_current_nodes := alInsert_snd hs
    rw [InnerAction.add_node]
    rcases hI : alInsert ns.node.name ns
        (push ia (NodeChange.AddWithState ns.node ns.state).to_event).our_current_nodes
      with ⟨m', old⟩
    have : old = alLookup ns.node.name ia.our_current_nodes := by
      have : (alInsert ns.node.name ns ia.our_current_nodes).2 = old := by
        rw [show (push ia (NodeChange.AddWithState ns.node ns.state).to_event).our_current_nodes
              = ia.our_current_nodes from rfl] at hI
        rw [hI]
      rw [← this, hsnd]
    subst this
    cases hL : alLookup ns.node.name ia.our_current_nodes <;> simp_all
  · rw [InnerAction.remove_node]
    rcases hR : alRemove name
        (push ia (NodeChange.Remove name).to_event).our_current_nodes with ⟨m', old⟩
    have : old = alLookup name ia.our_current_nodes := by
      have h2 := alRemove_snd name ia.our_current_nodes
      rw [show (push ia (NodeChange.Remove name).to_event).our_current_nodes
            = ia.our_current_nodes from rfl] at hR
      rw [hR] at h2
      simpa using h2
    subst this
    cases hL : alLookup name ia.our_current_nodes <;> simp_all
  · rw [InnerAction.replace_node]
    have htab : (push ia (NodeChange.ReplaceWith name ns.node ns.state).to_event).our_current_nodes
        = ia.our_current_nodes := rfl
    rw [htab]
    have hr2 : (alRemove name ia.our_current_nodes).2 = alLookup name ia.our_current_nodes :=
      alRemove_snd name ia.our_current_nodes
    have hi2 : (alInsert ns.node.name ns (alRemove name ia.our_current_nodes).1).2
        = alLookup ns.node.name (alRemove name ia.our_current_nodes).1 :=
      alInsert_snd (alSorted_alRemove hs)
    rw [alLookup_alRemove hs] at hi2
    by_cases hnn : ns.node.name = name
    · simp only [hi2, if_pos hnn]
      cases hL : alLookup name ia.our_current_nodes <;> simp_all
    · simp only [hi2, if_neg hnn]
      cases hL : alLookup name ia.our_current_nodes <;>
        cases hL2 : alLookup ns.node.name ia.our_current_nodes <;> simp_all
  · rw [InnerAction.set_node_state]
    cases hL : alLookup name ia.our_current_nodes <;> simp_all
  · rw [InnerAction.set_elder_state]
    cases hL : alLookup name ia.our_current_nodes <;> simp_all

/-- C9 (witness): on the one-adult table, removing the absent name 7 aborts,
and adding the fresh default row does not. -/
theorem c9_witness :
    exampleOneAdult.remove_node 7 = none
    ∧ exampleOneAdult.add_node NodeState.default ≠ none :=
  ⟨((c9_table_primitives exampleOneAdult NodeState.default 7 .Online false
      (by simp [alSorted, exampleOneAdult])).2.1).mpr (by decide),
   fun h => by
     have := ((c9_table_primitives exampleOneAdult NodeState.default 7 .Online false
       (by simp [alSorted, exampleOneAdult])).1).mp h
     exact absurd this (by decide)⟩

/-! Claim C1: `Action::check_elder` returns a change exactly when the sorted
elder prefix disagrees with the current `is_elder` flags. -/

/-- C1: the members are sorted by (state asc, age desc, name asc); the first
`min(3, n)` are the intended elders; the result is `none` exactly when the
intended elders are precisely the flagged ones, and otherwise carries the
gained elders paired with `true`, the lost ones paired with `false`, and the
successor section. -/
theorem c1_check_elder (ia : InnerAction) :
    (check_elder ia = none ↔
      ((∀ x ∈ (sortedMembers ia).take (elderSize ia), x.is_elder = true)
       ∧ (∀ x ∈ (sortedMembers ia).drop (elderSize ia), x.is_elder = false)))
    ∧ ∀ ce, check_elder ia = some ce →
        ce.new_section = ⟨ia.our_section.sec, ia.our_section.version + 1⟩
        ∧ ce.changes =
            (((sortedMembers ia).take (elderSize ia)).filter (fun x => !x.is_elder)).map
              (fun x => (x.node, true))
            ++ (((sortedMembers ia).drop (elderSize ia)).filter (fun x => x.is_elder)).map
              (fun x => (x.node, false)) := by
  have hchar : (elderChanges ia).isEmpty = true ↔
      ((∀ x ∈ (sortedMembers ia).take (elderSize ia), x.is_elder = true)
       ∧ (∀ x ∈ (sortedMembers ia).drop (elderSize ia), x.is_elder = false)) := by
    rw [List.isEmpty_iff, elderChanges, List.append_eq_nil]
    constructor
    · rintro ⟨h1, h2⟩
      rw [List.map_eq_nil, List.filter_eq_nil] at h1 h2
      exact ⟨fun x hx => by simpa using h1 x hx, fun x hx => by simpa using h2 x hx⟩
    · rintro ⟨h1, h2⟩
      rw [List.map_eq_nil, List.filter_eq_nil, List.map_eq_nil, List.filter_eq_nil]
      exact ⟨fun x hx => by simp [h1 x hx], fun x hx => by simp [h2 x hx]⟩
  constructor
  · rw [check_elder]
    split_ifs with h
    · simpa using hchar.mp h
    · simp only [reduceCtorEq, false_iff]
      intro hcontra
      exact h (hchar.mpr hcontra)
  · intro ce hce
    rw [check_elder] at hce
    split_ifs at hce with h
    cases hce
    refine ⟨rfl, ?_⟩
    simp only [elderChanges]

/-- C1 (witness): on the one-adult table the adult is promoted and the section
version advances from 0 to 1. -/
theorem c1_witness :
    check_elder exampleOneAdult = some ⟨[(⟨⟨10, 5⟩⟩, true)], ⟨0, 1⟩⟩
    ∧ (⟨[(⟨⟨10, 5⟩⟩, true)], ⟨0, 1⟩⟩ : ChangeElder).new_section = ⟨0, 1⟩ :=
  ⟨by decide, ((c1_check_elder exampleOneAdult).2 _ (by decide)).1⟩

/-! Claim C3 (code bug): with a shortest-prefix neighbour set, consensus
`ExpectCandidate` must forward the candidate, but
`consensused_expect_candidate` never consults `check_shortest_prefix` and
admits the candidate locally. -/

/-- C3 (evaluation at the failing input): from the default state, after
`SetShortestPrefix(Some(Section(1)))`, consensus `ExpectCandidate(1001@9)`
appends an `AddWithState` node change and a `RelocateResponse` — a local
admission — and no `Rpc::ExpectCandidate` forward is emitted. -/
theorem c3_failing_eval :
    MemberState.try_next MemberState.default (TestEvent.SetShortestPfx (some 1)).to_event
      = some (c3state0, .Handled)
    ∧ check_shortest_pfx c3state0.action = some 1
    ∧ MemberState.try_next c3state0 (ParsecVote.ExpectCandidate candOld1).to_event
      = some (c3state1, .Handled)
    ∧ evAppended c3state0.action c3state1.action =
        [(NodeChange.AddWithState ⟨⟨10, 0⟩⟩
            (.WaitingCandidateInfo ⟨candOld1, 10, 0, ⟨0, 0⟩⟩)).to_event,
         (Rpc.RelocateResponse ⟨candOld1, 10, 0, ⟨0, 0⟩⟩).to_event]
    ∧ (evAppended c3state0.action c3state1.action).all
        (fun e => match e with | .Rpc (.ExpectCandidate _) => false | _ => true) = true
    ∧ alLookup 0 c3state1.action.our_current_nodes ≠ none := by
  refine ⟨?_, ?_, ?_, ?_, ?_, ?_⟩ <;> decide

/-! Claim C5: idempotent re-admission. -/

/-- C5 (counterexample): from the default state, admit `1001@9`; the resulting
state is reachable, and processing consensus `ExpectCandidate(1002@9)` twice
with no intervening `Online`/`PurgeCandidate` emits `RefuseCandidate` both
times — no `RelocateResponse` at all, contradicting the claim as stated. -/
theorem c5_counterexample :
    MemberState.try_next MemberState.default (ParsecVote.ExpectCandidate candOld1).to_event
      = some (c5state1, .Handled)
    ∧ MemberState.try_next c5state1 (ParsecVote.ExpectCandidate candOld2).to_event
      = some (c5state2, .Handled)
    ∧ MemberState.try_next c5state2 (ParsecVote.ExpectCandidate candOld2).to_event
      = some (c5state3, .Handled)
    ∧ evAppended c5state1.action c5state2.action = [(Rpc.RefuseCandidate candOld2).to_event]
    ∧ evAppended c5state2.action c5state3.action = [(Rpc.RefuseCandidate candOld2).to_event]
    ∧ (evAppended c5state1.action c5state3.action).all
        (fun e => match e with | .Rpc (.RelocateResponse _) => false | _ => true) = true := by
  refine ⟨?_, ?_, ?_, ?_, ?_, ?_⟩ <;> decide

/-! Claim C4: the three-way decision of `consensused_expect_candidate`. -/

/-- C4: on consensus `ExpectCandidate(c)` — an existing ticket is resent with
the table untouched; otherwise with no candidate mid-admission a waiting node
is inserted at the next target interval and the fresh ticket is sent;
otherwise a `RefuseCandidate` is sent with the table untouched. -/
theorem c4_consensused_expect_candidate (ia : InnerAction) (c : Candidate) :
    (∀ info, get_waiting_candidate_info ia c = some info →
      ∃ ia', consensused_expect_candidate ia c = some ia'
        ∧ ia'.our_events = ia.our_events ++ [(Rpc.RelocateResponse info).to_event]
        ∧ ia'.our_current_nodes = ia.our_current_nodes
        ∧ ia'.next_target_interval = ia.next_target_interval)
    ∧ (get_waiting_candidate_info ia c = none → count_waiting_proofing_or_hop ia = 0 →
        ∀ ia', consensused_expect_candidate ia c = some ia' →
          ia'.our_events = ia.our_events
              ++ [(NodeChange.AddWithState ⟨⟨c.attrs.age + 1, ia.next_target_interval⟩⟩
                    (.WaitingCandidateInfo ⟨c, c.attrs.age + 1, ia.next_target_interval,
                       ia.our_section⟩)).to_event,
                  (Rpc.RelocateResponse ⟨c, c.attrs.age + 1, ia.next_target_interval,
                     ia.our_section⟩).to_event]
          ∧ ia'.our_current_nodes =
              (alInsert ia.next_target_interval
                { node := ⟨⟨c.attrs.age + 1, ia.next_target_interval⟩⟩
                  work_units_done := 0
                  is_elder := false
                  state := .WaitingCandidateInfo ⟨c, c.attrs.age + 1, ia.next_target_interval,
                    ia.our_section⟩ } ia.our_current_nodes).1
          ∧ ia'.next_target_interval = ia.next_target_interval + 1)
    ∧ (get_waiting_candidate_info ia c = none → count_waiting_proofing_or_hop ia ≠ 0 →
        consensused_expect_candidate ia c = some (send_rpc ia (.RefuseCandidate c))
        ∧ (send_rpc ia (.RefuseCandidate c)).our_current_nodes = ia.our_current_nodes
        ∧ (send_rpc ia (.RefuseCandidate c)).next_target_interval
            = ia.next_target_interval) := by
  refine ⟨?_, ?_, ?_⟩
  · intro info h
    refine ⟨send_relocate_response_rpc ia info, ?_, rfl, rfl, rfl⟩
    rw [consensused_expect_candidate, h]
  · intro h1 h2 ia' h3
    rw [consensused_expect_candidate, h1, h2, add_node_waiting_candidate_info] at h3
    simp only [InnerAction.add_node, Node.name, NodeState.default, push] at h3
    rcases hI : alInsert ia.next_target_interval
        { node := ⟨⟨c.attrs.age + 1, ia.next_target_interval⟩⟩
          work_units_done := 0
          is_elder := false
          state := .WaitingCandidateInfo ⟨c, c.attrs.age + 1, ia.next_target_interval,
            ia.our_section⟩ } ia.our_current_nodes with ⟨m, old⟩
    rw [hI] at h3
    cases old with
    | some prev => simp at h3
    | none =>
      simp only [send_relocate_response_rpc, send_rpc, push, Option.some.injEq] at h3
      subst h3
      refine ⟨by simp, ?_, rfl⟩
      simp [hI]
  · intro h1 h2
    rcases hN : count_waiting_proofing_or_hop ia with _ | n
    · exact absurd hN h2
    · rw [consensused_expect_candidate, h1, hN]
      exact ⟨rfl, rfl, rfl⟩

/-- C4 (witness): on the ticket-holding table, a second consensus for `1001@9`
resends the stored ticket and leaves the table untouched. -/
theorem c4_witness :
    ∃ ia', consensused_expect_candidate c4TicketState candOld1 = some ia'
      ∧ ia'.our_events = c4TicketState.our_events
          ++ [(Rpc.RelocateResponse ⟨candOld1, 10, 0, ⟨0, 0⟩⟩).to_event]
      ∧ ia'.our_current_nodes = c4TicketState.our_current_nodes
      ∧ ia'.next_target_interval = c4TicketState.next_target_interval :=
  (c4_consensused_expect_candidate c4TicketState candOld1).1 _ (by decide)

theorem evAppended_of_events {a b : InnerAction} {l : List Event}
    (h : b.our_events = a.our_events ++ l) : evAppended a b = l := by
  rw [evAppended, h, List.drop_left]

theorem evAppended_push (ia : InnerAction) (e : Event) :
    evAppended ia (push ia e) = [e] := by
  simp [evAppended, push, List.drop_left]

theorem evAppended_push_push (ia : InnerAction) (e1 e2 : Event) :
    evAppended ia (push (push ia e1) e2) = [e1, e2] := by
  have : (push (push ia e1) e2).our_events = ia.our_events ++ [e1, e2] := by
    simp [push]
  rw [evAppended, this, List.drop_left]

/-- A freshly inserted `WaitingCandidateInfo` row is found by
`get_waiting_candidate_info` when no other row matched before. -/
theorem get_waiting_after_insert {m : NodeTable} {k : Int} {row : NodeState}
    {info : RelocatedInfo} {c : Candidate}
    (hrow : row.state = .WaitingCandidateInfo info) (hc : (info.candidate == c) = true)
    (hnone : ((alValues m).filterMap (fun st => st.state.waiting_candidate_info)).find?
        (fun i => i.candidate == c) = none)
    (hins : (alInsert k row m).2 = none) :
    ((alValues (alInsert k row m).1).filterMap (fun st => st.state.waiting_candidate_info)).find?
        (fun i => i.candidate == c) = some info := by
  obtain ⟨l1, l2, hm, hres⟩ := alInsert_split hins
  subst hm
  rw [hres]
  rw [alValues, List.map_append] at hnone
  rw [List.filterMap_append, List.find?_append, Option.or_eq_none] at hnone
  rw [alValues, List.map_append, List.map_cons]
  rw [List.filterMap_append, List.find?_append, hnone.1]
  rw [show ((k, row).2 : NodeState) = row from rfl]
  rw [@List.filterMap_cons_some NodeState RelocatedInfo
    (fun st => st.state.waiting_candidate_info) row (List.map Prod.snd l2) info
    (by simp only [hrow, State.waiting_candidate_info])]
  rw [@List.find?_cons_of_pos RelocatedInfo (fun i => i.candidate == c) info
    (List.filterMap (fun st => st.state.waiting_candidate_info) (List.map Prod.snd l2)) hc]
  rfl

/-- C5 (amended): two consecutive consensus `ExpectCandidate(c)` with no event
in between leave the table and the target-interval counter unchanged at the
second step, and either both emit `RelocateResponse` with the same payload
(the second being exactly a resend) or both emit `RefuseCandidate(c)`. -/
theorem c5_idempotent_readmission (ia ia1 ia2 : InnerAction) (c : Candidate)
    (h1 : consensused_expect_candidate ia c = some ia1)
    (h2 : consensused_expect_candidate ia1 c = some ia2) :
    ia2.our_current_nodes = ia1.our_current_nodes
    ∧ ia2.next_target_interval = ia1.next_target_interval
    ∧ ((∃ info, (evAppended ia ia1).getLast? = some (Rpc.RelocateResponse info).to_event
          ∧ evAppended ia1 ia2 = [(Rpc.RelocateResponse info).to_event])
       ∨ (evAppended ia ia1 = [(Rpc.RefuseCandidate c).to_event]
          ∧ evAppended ia1 ia2 = [(Rpc.RefuseCandidate c).to_event])) := by
  rcases hA : get_waiting_candidate_info ia c with _ | info
  · rcases hN : count_waiting_proofing_or_hop ia with _ | n
    · -- admission: a fresh ticket is inserted, then resent
      rw [consensused_expect_candidate, hA, hN, add_node_waiting_candidate_info] at h1
      simp only [InnerAction.add_node, Node.name, NodeState.default, push] at h1
      rcases hI : alInsert ia.next_target_interval
          { node := ⟨⟨c.attrs.age + 1, ia.next_target_interval⟩⟩
            work_units_done := 0
            is_elder := false
            state := .WaitingCandidateInfo ⟨c, c.attrs.age + 1, ia.next_target_interval,
              ia.our_section⟩ } ia.our_current_nodes with ⟨m, old⟩
      rw [hI] at h1
      cases old with
      | some prev => simp at h1
      | none =>
        simp only [send_relocate_response_rpc, send_rpc, push, Option.some.injEq] at h1
        have htab : ia1.our_current_nodes = m := by rw [← h1]
        have hev : ia1.our_events = ia.our_events
            ++ [(NodeChange.AddWithState ⟨⟨c.attrs.age + 1, ia.next_target_interval⟩⟩
                  (.WaitingCandidateInfo ⟨c, c.attrs.age + 1, ia.next_target_interval,
                    ia.our_section⟩)).to_event,
                (Rpc.RelocateResponse ⟨c, c.attrs.age + 1, ia.next_target_interval,
                  ia.our_section⟩).to_event] := by
          rw [← h1]
          simp
        have hins2 : (alInsert ia.next_target_interval
            { node := ⟨⟨c.attrs.age + 1, ia.next_target_interval⟩⟩
              work_units_done := 0
              is_elder := false
              state := .WaitingCandidateInfo ⟨c, c.attrs.age + 1, ia.next_target_interval,
                ia.our_section⟩ } ia.our_current_nodes).2 = none := by rw [hI]
        have hfound := @get_waiting_after_insert ia.our_current_nodes ia.next_target_interval
          { node := ⟨⟨c.attrs.age + 1, ia.next_target_interval⟩⟩
            work_units_done := 0
            is_elder := false
            state := .WaitingCandidateInfo ⟨c, c.attrs.age + 1, ia.next_target_interval,
              ia.our_section⟩ }
          ⟨c, c.attrs.age + 1, ia.next_target_interval, ia.our_section⟩ c
          rfl (by simp) hA hins2
        have hgw1 : get_waiting_candidate_info ia1 c =
            some ⟨c, c.attrs.age + 1, ia.next_target_interval, ia.our_section⟩ := by
          rw [get_waiting_candidate_info, htab, show m = (alInsert ia.next_target_interval
            { node := ⟨⟨c.attrs.age + 1, ia.next_target_interval⟩⟩
              work_units_done := 0
              is_elder := false
              state := .WaitingCandidateInfo ⟨c, c.attrs.age + 1, ia.next_target_interval,
                ia.our_section⟩ } ia.our_current_nodes).1 from by rw [hI]]
          exact hfound
        rw [consensused_expect_candidate, hgw1] at h2
        simp only [send_relocate_response_rpc, send_rpc, push, Option.some.injEq] at h2
        refine ⟨by rw [← h2], by rw [← h2], Or.inl
          ⟨⟨c, c.attrs.age + 1, ia.next_target_interval, ia.our_section⟩, ?_, ?_⟩⟩
        · rw [evAppended, hev, List.drop_left]
          rfl
        · exact evAppended_of_events (by rw [← h2])
    · -- refusal twice
      rw [consensused_expect_candidate, hA, hN] at h1
      simp only [send_rpc, push, Option.some.injEq] at h1
      have hgw1 : get_waiting_candidate_info ia1 c = none := by rw [← h1]; exact hA
      have hN1 : count_waiting_proofing_or_hop ia1 = n + 1 := by rw [← h1]; exact hN
      rw [consensused_expect_candidate, hgw1, hN1] at h2
      simp only [send_rpc, push, Option.some.injEq] at h2
      refine ⟨by rw [← h2], by rw [← h2], Or.inr ⟨?_, ?_⟩⟩
      · exact evAppended_of_events (by rw [← h1])
      · exact evAppended_of_events (by rw [← h2])
  · -- resend of an existing ticket, twice
    rw [consensused_expect_candidate, hA] at h1
    simp only [send_relocate_response_rpc, send_rpc, push, Option.some.injEq] at h1
    have hgw1 : get_waiting_candidate_info ia1 c = some info := by rw [← h1]; exact hA
    rw [consensused_expect_candidate, hgw1] at h2
    simp only [send_relocate_response_rpc, send_rpc, push, Option.some.injEq] at h2
    refine ⟨by rw [← h2], by rw [← h2], Or.inl ⟨info, ?_, ?_⟩⟩
    · rw [@evAppended_of_events ia ia1 [(Rpc.RelocateResponse info).to_event] (by rw [← h1])]
      rfl
    · exact evAppended_of_events (by rw [← h2])

/-- C5 (witness for the amended theorem): two re-admissions of `1001@9` on the
ticket-holding table resend the identical ticket. -/
theorem c5_witness :
    c5wState2.our_current_nodes = c5wState1.our_current_nodes
    ∧ c5wState2.next_target_interval = c5wState1.next_target_interval
    ∧ ((∃ info, (evAppended c4TicketState c5wState1).getLast?
            = some (Rpc.RelocateResponse info).to_event
          ∧ evAppended c5wState1 c5wState2 = [(Rpc.RelocateResponse info).to_event])
       ∨ (evAppended c4TicketState c5wState1 = [(Rpc.RefuseCandidate candOld1).to_event]
          ∧ evAppended c5wState1 c5wState2 = [(Rpc.RefuseCandidate candOld1).to_event])) :=
  c5_idempotent_readmission c4TicketState c5wState1 c5wState2 candOld1 (by decide) (by decide)

/-! Claim C2: the dispatch discipline of `MemberState::try_next`. -/

theorem orElseTry_unhandled (s : MemberState) (k : MemberState → TryOutcome) :
    orElseTry (some (s, .Unhandled)) k = k s := rfl

theorem orElseTry_assoc (a : TryOutcome) (k1 k2 : MemberState → TryOutcome) :
    orElseTry (orElseTry a k1) k2 = orElseTry a (fun s => orElseTry (k1 s) k2) := by
  rcases a with _ | ⟨s, r⟩
  · rfl
  · cases r <;> rfl

theorem tryNextWaited_eq_offer (s : MemberState) (w : WaitedEvent) :
    MemberState.try_next_waited s w
      = orElseTry (offerInOrder s w) (fun s1 => fallbackDispatch s1 w) := by
  rw [offerInOrder, subMachinesInOrder]
  simp only [List.foldl_cons, List.foldl_nil, orElseTry_assoc, orElseTry_unhandled]
  rfl

/-- C2: a test event is routed straight to `process_test_events` (no
sub-machine sees it); any waited event is offered to the nine sub-machines in
their fixed priority order, the first `Handled` winning, and the fallback
turns `ConnectionInfoResponse` into `NotYetImplementedErrorTriggered`,
consensused `AddElderNode`/`RemoveElderNode`/`NewSectionInfo` into
`UnexpectedEventErrorTriggered` (all `Handled`), and leaves every other event
`Unhandled`. -/
theorem c2_dispatch_order (s : MemberState) (e : Event) :
    (∀ te, e.to_test_event = some te →
      MemberState.try_next s e
        = some (withAction s (process_test_events s.action te), .Handled))
    ∧ (∀ w, e.to_waited_event = some w →
        MemberState.try_next s e
          = orElseTry (offerInOrder s w) (fun s1 => fallbackDispatch s1 w))
    ∧ (∀ w, fallbackCatches w = false → fallbackDispatch s w = some (s, .Unhandled))
    ∧ (∀ src dst ci, fallbackDispatch s (.Rpc (.ConnectionInfoResponse src dst ci))
        = some (withAction s (action_triggered s.action .NotYetImplementedErrorTriggered),
            .Handled))
    ∧ (∀ n, fallbackDispatch s (.ParsecConsensus (.AddElderNode n))
        = some (withAction s (action_triggered s.action .UnexpectedEventErrorTriggered),
            .Handled))
    ∧ (∀ n, fallbackDispatch s (.ParsecConsensus (.RemoveElderNode n))
        = some (withAction s (action_triggered s.action .UnexpectedEventErrorTriggered),
            .Handled))
    ∧ (∀ si, fallbackDispatch s (.ParsecConsensus (.NewSectionInfo si))
        = some (withAction s (action_triggered s.action .UnexpectedEventErrorTriggered),
            .Handled)) := by
  refine ⟨?_, ?_, ?_, fun _ _ _ => rfl, fun _ => rfl, fun _ => rfl, fun _ => rfl⟩
  · intro te hte
    cases e <;> simp_all [Event.to_test_event, MemberState.try_next]
  · intro w hw
    cases e <;> simp_all [Event.to_waited_event, Event.to_test_event, MemberState.try_next] <;>
      exact tryNextWaited_eq_offer s w
  · intro w hw
    rcases w with r | v | le
    · cases r <;> simp_all [fallbackCatches, fallbackDispatch]
    · cases v <;> simp_all [fallbackCatches, fallbackDispatch]
    · cases le <;> simp_all [fallbackCatches, fallbackDispatch]

/-- C2 (witness): at the default state, a `CheckElder` consensus follows the
offer chain, and an unexpected `AddElderNode` consensus hits the fallback. -/
theorem c2_witness :
    MemberState.try_next MemberState.default (ParsecVote.CheckElder).to_event
      = orElseTry (offerInOrder MemberState.default (.ParsecConsensus .CheckElder))
          (fun s1 => fallbackDispatch s1 (.ParsecConsensus .CheckElder))
    ∧ fallbackDispatch MemberState.default
        (.ParsecConsensus (.AddElderNode ⟨⟨0, 0⟩⟩))
      = some (withAction MemberState.default
          (action_triggered MemberState.default.action .UnexpectedEventErrorTriggered),
          .Handled) :=
  ⟨(c2_dispatch_order MemberState.default (ParsecVote.CheckElder).to_event).2.1
      (.ParsecConsensus .CheckElder) rfl,
   (c2_dispatch_order MemberState.default (ParsecVote.CheckElder).to_event).2.2.2.2.1 ⟨⟨0, 0⟩⟩⟩

/-! Unhandled offers leave the state untouched: one lemma per sub-machine. -/

theorem orElseTry_cases {a : TryOutcome} {k : MemberState → TryOutcome} {s' : MemberState}
    {r : TryResult} (h : orElseTry a k = some (s', r)) :
    (a = some (s', .Handled) ∧ r = .Handled)
    ∨ (∃ t, a = some (t, .Unhandled) ∧ k t = some (s', r)) := by
  rcases a with _ | ⟨t, tr⟩
  · cases h
  · cases tr
    · left
      cases h
      exact ⟨rfl, rfl⟩
    · right
      exact ⟨t, rfl, h⟩

theorem coo_unhandled {s s' : MemberState} {w : WaitedEvent}
    (h : CheckOnlineOffline.try_next s w = some (s', .Unhandled)) : s' = s := by
  rcases w with r | v | le
  · simp [CheckOnlineOffline.try_next] at h
    exact h.symm
  · cases v <;> simp_all [CheckOnlineOffline.try_next, withActionOpt]
  · cases le <;> simp_all [CheckOnlineOffline.try_next]

theorem split_unhandled {s s' : MemberState} {w : WaitedEvent}
    (h : ProcessSplit.try_next_guarded s w = some (s', .Unhandled)) : s' = s := by
  rw [ProcessSplit.try_next_guarded] at h
  split_ifs at h
  · rcases w with r | v | le
    · simp [ProcessSplit.try_next] at h
      exact h.symm
    · rw [ProcessSplit.try_next] at h
      split_ifs at h with hmem
      · simp only [] at h
        split_ifs at h <;> simp_all
      · simp at h
        exact h.symm
    · simp [ProcessSplit.try_next] at h
      exact h.symm
  · simp at h
    exact h.symm

theorem merge_unhandled {s s' : MemberState} {w : WaitedEvent}
    (h : ProcessMerge.try_next_guarded s w = some (s', .Unhandled)) : s' = s := by
  rw [ProcessMerge.try_next_guarded] at h
  split_ifs at h
  · rcases w with r | v | le
    · simp [ProcessMerge.try_next] at h
      exact h.symm
    · cases v <;> simp_all [ProcessMerge.try_next, Option.map_eq_some']
    · simp [ProcessMerge.try_next] at h
      exact h.symm
  · simp at h
    exact h.symm

theorem elder_change_unhandled {s s' : MemberState} {w : WaitedEvent}
    (h : ProcessElderChange.try_next_guarded s w = some (s', .Unhandled)) : s' = s := by
  rw [ProcessElderChange.try_next_guarded] at h
  split_ifs at h
  · rcases w with r | v | le
    · simp [ProcessElderChange.try_next] at h
      exact h.symm
    · rw [ProcessElderChange.try_next] at h
      split_ifs at h with hmem
      · simp only [] at h
        split_ifs at h with hempty
        · split at h
          · cases h
          · simp at h
        · simp at h
      · simp at h
        exact h.symm
    · simp [ProcessElderChange.try_next] at h
      exact h.symm
  · simp at h
    exact h.symm

theorem smsce_unhandled {s s' : MemberState} {w : WaitedEvent}
    (h : StartMergeSplitAndChangeElders.try_next s w = some (s', .Unhandled)) : s' = s := by
  rcases w with r | v | le
  · cases r <;> simp_all [StartMergeSplitAndChangeElders.try_next]
  · cases v <;> simp_all [StartMergeSplitAndChangeElders.try_next, Option.map_eq_some']
  · cases le <;> simp_all [StartMergeSplitAndChangeElders.try_next]

theorem relocate_src_unhandled {s s' : MemberState} {w : WaitedEvent}
    (h : StartRelocateSrc.try_next s w = some (s', .Unhandled)) : s' = s := by
  rcases w with r | v | le
  · cases r <;> simp_all [StartRelocateSrc.try_next]
  · cases v <;> simp_all [StartRelocateSrc.try_next, Option.map_eq_some']
  · cases le <;> simp_all [StartRelocateSrc.try_next]

theorem decides_unhandled {s s' : MemberState} {w : WaitedEvent}
    (h : StartDecidesOnNodeToRelocate.try_next s w = some (s', .Unhandled)) : s' = s := by
  rcases w with r | v | le
  · simp [StartDecidesOnNodeToRelocate.try_next] at h
    exact h.symm
  · cases v <;> simp_all [StartDecidesOnNodeToRelocate.try_next, Option.map_eq_some']
  · cases le <;> simp_all [StartDecidesOnNodeToRelocate.try_next]

theorem resource_proof_unhandled {s s' : MemberState} {w : WaitedEvent}
    (h : StartResourceProof.try_next s w = some (s', .Unhandled)) : s' = s := by
  rcases w with r | v | le
  · cases r <;> simp_all [StartResourceProof.try_next]
  · cases v <;> try (simp [StartResourceProof.try_next] at h; exact h.symm)
    · -- Online
      simp only [StartResourceProof.try_next] at h
      rcases hc : s.start_resource_proof.candidate with _ | ⟨wn, co⟩
      · rw [hc] at h
        simp at h
      · rw [hc] at h
        simp only [] at h
        split_ifs at h with hco
        · simp [Option.map_eq_some'] at h
        · simp at h
    · -- PurgeCandidate
      simp only [StartResourceProof.try_next] at h
      rcases hc : s.start_resource_proof.candidate with _ | ⟨wn, co⟩
      · rw [hc] at h
        simp at h
      · rw [hc] at h
        simp only [] at h
        split_ifs at h with hco
        · split at h
          · cases h
          · simp at h
        · simp at h
    · -- CheckResourceProof
      simp only [StartResourceProof.try_next] at h
      try simp only [] at h
      split_ifs at h <;> simp at h
  · cases le <;> try (simp [StartResourceProof.try_next] at h; exact h.symm)
    · -- TimeoutAccept
      simp only [StartResourceProof.try_next] at h
      rcases hc : s.start_resource_proof.candidate with _ | ⟨wn, co⟩ <;> rw [hc] at h <;>
        simp at h
    · -- CheckResourceProofTimeout
      simp [StartResourceProof.try_next] at h

theorem respond_unhandled {s s' : MemberState} {w : WaitedEvent}
    (h : RespondToRelocateRequests.try_next s w = some (s', .Unhandled)) : s' = s := by
  rcases w with r | v | le
  · cases r <;> simp_all [RespondToRelocateRequests.try_next]
  · cases v <;> simp_all [RespondToRelocateRequests.try_next, Option.map_eq_some']
  · cases le <;> simp_all [RespondToRelocateRequests.try_next]

theorem fallback_unhandled {s s' : MemberState} {w : WaitedEvent}
    (h : fallbackDispatch s w = some (s', .Unhandled)) : s' = s := by
  rcases w with r | v | le
  · cases r <;> simp_all [fallbackDispatch]
  · cases v <;> simp_all [fallbackDispatch]
  · cases le <;> simp_all [fallbackDispatch]

theorem orElseTry_peel {w : WaitedEvent} {s s' : MemberState} {r : TryResult}
    {f : MemberState → WaitedEvent → TryOutcome} {k : MemberState → TryOutcome}
    (hf : ∀ t t' : MemberState, f t w = some (t', .Unhandled) → t' = t)
    (h : orElseTry (f s w) k = some (s', r)) :
    (f s w = some (s', .Handled) ∧ r = .Handled) ∨ k s = some (s', r) := by
  rcases orElseTry_cases h with hh | ⟨t, ht, hk⟩
  · exact Or.inl hh
  · have he := hf s t ht
    subst he
    exact Or.inr hk

theorem tryNextWaited_unhandled {s s' : MemberState} {w : WaitedEvent}
    (h : MemberState.try_next_waited s w = some (s', .Unhandled)) : s' = s := by
  rw [MemberState.try_next_waited] at h
  rcases orElseTry_peel (fun _ _ ht => coo_unhandled ht) h with ⟨_, hr⟩ | h; · cases hr
  rcases orElseTry_peel (fun _ _ ht => split_unhandled ht) h with ⟨_, hr⟩ | h; · cases hr
  rcases orElseTry_peel (fun _ _ ht => merge_unhandled ht) h with ⟨_, hr⟩ | h; · cases hr
  rcases orElseTry_peel (fun _ _ ht => elder_change_unhandled ht) h with ⟨_, hr⟩ | h
  · cases hr
  rcases orElseTry_peel (fun _ _ ht => smsce_unhandled ht) h with ⟨_, hr⟩ | h; · cases hr
  rcases orElseTry_peel (fun _ _ ht => relocate_src_unhandled ht) h with ⟨_, hr⟩ | h
  · cases hr
  rcases orElseTry_peel (fun _ _ ht => decides_unhandled ht) h with ⟨_, hr⟩ | h; · cases hr
  rcases orElseTry_peel (fun _ _ ht => resource_proof_unhandled ht) h with ⟨_, hr⟩ | h
  · cases hr
  rcases orElseTry_peel (fun _ _ ht => respond_unhandled ht) h with ⟨_, hr⟩ | h; · cases hr
  exact fallback_unhandled h

/-- Decomposition of a `Handled` dispatch: exactly one sub-machine (or the
fallback) consumed the event, every earlier one returning `Unhandled` without
touching the state. -/
theorem tryNextWaited_handled_cases {s s' : MemberState} {w : WaitedEvent}
    (h : MemberState.try_next_waited s w = some (s', .Handled)) :
    CheckOnlineOffline.try_next s w = some (s', .Handled)
    ∨ ProcessSplit.try_next_guarded s w = some (s', .Handled)
    ∨ ProcessMerge.try_next_guarded s w = some (s', .Handled)
    ∨ ProcessElderChange.try_next_guarded s w = some (s', .Handled)
    ∨ StartMergeSplitAndChangeElders.try_next s w = some (s', .Handled)
    ∨ StartRelocateSrc.try_next s w = some (s', .Handled)
    ∨ StartDecidesOnNodeToRelocate.try_next s w = some (s', .Handled)
    ∨ StartResourceProof.try_next s w = some (s', .Handled)
    ∨ RespondToRelocateRequests.try_next s w = some (s', .Handled)
    ∨ fallbackDispatch s w = some (s', .Handled) := by
  rw [MemberState.try_next_waited] at h
  rcases orElseTry_peel (fun _ _ ht => coo_unhandled ht) h with ⟨ha, _⟩ | h
  · exact Or.inl ha
  rcases orElseTry_peel (fun _ _ ht => split_unhandled ht) h with ⟨ha, _⟩ | h
  · exact Or.inr (Or.inl ha)
  rcases orElseTry_peel (fun _ _ ht => merge_unhandled ht) h with ⟨ha, _⟩ | h
  · exact Or.inr (Or.inr (Or.inl ha))
  rcases orElseTry_peel (fun _ _ ht => elder_change_unhandled ht) h with ⟨ha, _⟩ | h
  · exact Or.inr (Or.inr (Or.inr (Or.inl ha)))
  rcases orElseTry_peel (fun _ _ ht => smsce_unhandled ht) h with ⟨ha, _⟩ | h
  · exact Or.inr (Or.inr (Or.inr (Or.inr (Or.inl ha))))
  rcases orElseTry_peel (fun _ _ ht => relocate_src_unhandled ht) h with ⟨ha, _⟩ | h
  · exact Or.inr (Or.inr (Or.inr (Or.inr (Or.inr (Or.inl ha)))))
  rcases orElseTry_peel (fun _ _ ht => decides_unhandled ht) h with ⟨ha, _⟩ | h
  · exact Or.inr (Or.inr (Or.inr (Or.inr (Or.inr (Or.inr (Or.inl ha))))))
  rcases orElseTry_peel (fun _ _ ht => resource_proof_unhandled ht) h with ⟨ha, _⟩ | h
  · exact Or.inr (Or.inr (Or.inr (Or.inr (Or.inr (Or.inr (Or.inr (Or.inl ha)))))))
  rcases orElseTry_peel (fun _ _ ht => respond_unhandled ht) h with ⟨ha, _⟩ | h
  · exact Or.inr (Or.inr (Or.inr (Or.inr (Or.inr (Or.inr (Or.inr (Or.inr (Or.inl ha))))))))
  exact Or.inr (Or.inr (Or.inr (Or.inr (Or.inr (Or.inr (Or.inr (Or.inr (Or.inr h))))))))

/-! Claim C10: an `Unhandled` result leaves the shared `Action` untouched. -/

/-- C10: whenever `MemberState::try_next` returns `Unhandled`, the whole
`MemberState` — in particular the shared `Action`, its journal and every
`InnerAction` field — is unchanged. -/
theorem c10_unhandled_frame (s s' : MemberState) (e : Event)
    (h : MemberState.try_next s e = some (s', .Unhandled)) :
    s'.action = s.action ∧ s' = s := by
  rw [MemberState.try_next] at h
  rcases hte : e.to_test_event with _ | te
  · rw [hte] at h
    rcases hw : e.to_waited_event with _ | w
    · rw [hw] at h
      cases h
    · rw [hw] at h
      obtain rfl := tryNextWaited_unhandled h
      exact ⟨rfl, rfl⟩
  · rw [hte] at h
    cases h

/-- C10 (witness): the joining-only timeout event falls through every
sub-machine of a member and changes nothing. -/
theorem c10_witness :
    MemberState.try_next MemberState.default (LocalEvent.JoiningTimeoutConnectRefused).to_event
      = some (MemberState.default, .Unhandled)
    ∧ MemberState.default.action = MemberState.default.action :=
  ⟨by decide,
   (c10_unhandled_frame MemberState.default MemberState.default
      (LocalEvent.JoiningTimeoutConnectRefused).to_event (by decide)).1⟩

/-! Claim C8: comparator laws for the relocation-selection key. -/

theorem cmpInt_lt_iff (a b : Int) : cmpInt a b = .lt ↔ a < b := by
  rw [cmpInt]
  split_ifs <;> simp_all <;> omega

theorem cmpInt_eq_iff (a b : Int) : cmpInt a b = .eq ↔ a = b := by
  rw [cmpInt]
  split_ifs <;> simp_all <;> omega

theorem cmpOk_cmpInt : CmpOk cmpInt := by
  refine ⟨?_, ?_, ?_⟩
  · intro a b
    rw [cmpInt, cmpInt]
    split_ifs <;> simp [Ordering.swap] <;> omega
  · intro a b d hab hbd
    rw [cmpInt_lt_iff] at hab hbd ⊢
    omega
  · intro a b d hab
    rw [cmpInt_eq_iff] at hab
    subst hab
    rfl

theorem cmpOk_cmpBool : CmpOk cmpBool := by
  refine ⟨?_, ?_, ?_⟩
  · decide
  · decide
  · intro a b d hab
    revert hab
    cases a <;> cases b <;> cases d <;> decide

theorem cmpOk_comap {α γ : Type} {c : γ → γ → Ordering} (hc : CmpOk c) (π : α → γ) :
    CmpOk (fun a b => c (π a) (π b)) :=
  ⟨fun a b => hc.swap_eq (π a) (π b),
   fun a b d => hc.lt_trans (π a) (π b) (π d),
   fun a b d => hc.eq_substL (π a) (π b) (π d)⟩

theorem then_eq_lt {o1 o2 : Ordering} : o1.then o2 = .lt ↔ o1 = .lt ∨ (o1 = .eq ∧ o2 = .lt) := by
  cases o1 <;> simp [Ordering.then]

theorem then_eq_eq {o1 o2 : Ordering} : o1.then o2 = .eq ↔ o1 = .eq ∧ o2 = .eq := by
  cases o1 <;> simp [Ordering.then]

theorem CmpOk.eq_substR {γ : Type} {c : γ → γ → Ordering} (hc : CmpOk c) :
    ∀ a b d, c b d = .eq → c a d = c a b := by
  intro a b d h
  have h1 : c d b = .eq := by
    rw [hc.swap_eq d b, h]
    rfl
  have h2 := hc.eq_substL d b a h1
  have h3 := hc.swap_eq a d
  have h4 := hc.swap_eq a b
  rw [h3, h4, h2]

theorem cmpOk_then {γ : Type} {c1 c2 : γ → γ → Ordering} (h1 : CmpOk c1) (h2 : CmpOk c2) :
    CmpOk (fun a b => (c1 a b).then (c2 a b)) := by
  refine ⟨?_, ?_, ?_⟩
  · intro a b
    rw [h1.swap_eq, h2.swap_eq]
    cases c1 b a <;> cases c2 b a <;> simp [Ordering.then, Ordering.swap]
  · intro a b d hab hbd
    simp only [then_eq_lt] at hab hbd ⊢
    rcases hab with hab | ⟨hab, hab2⟩ <;> rcases hbd with hbd | ⟨hbd, hbd2⟩
    · exact Or.inl (h1.lt_trans a b d hab hbd)
    · exact Or.inl (by rw [h1.eq_substR a b d hbd]; exact hab)
    · exact Or.inl (by rw [h1.eq_substL a b d hab]; exact hbd)
    · refine Or.inr ⟨by rw [h1.eq_substL a b d hab]; exact hbd, ?_⟩
      exact h2.lt_trans a b d hab2 hbd2
  · intro a b d hab
    simp only [then_eq_eq] at hab
    rw [h1.eq_substL a b d hab.1, h2.eq_substL a b d hab.2]

theorem cmpOk_relocateKeyCmp : CmpOk relocateKeyCmp := by
  have hb := cmpOk_cmpBool
  have hi := cmpOk_cmpInt
  have c1 := cmpOk_comap hb (fun k : Bool × Bool × Bool × Int × Int => k.1)
  have c2 := cmpOk_comap hb (fun k : Bool × Bool × Bool × Int × Int => k.2.1)
  have c3 := cmpOk_comap hb (fun k : Bool × Bool × Bool × Int × Int => k.2.2.1)
  have c4 := cmpOk_comap hi (fun k : Bool × Bool × Bool × Int × Int => k.2.2.2.1)
  have c5 := cmpOk_comap hi (fun k : Bool × Bool × Bool × Int × Int => k.2.2.2.2)
  exact cmpOk_then (cmpOk_then (cmpOk_then c1 c2) (cmpOk_then c3 c4)) c5

theorem ord_ne_gt {o : Ordering} : o ≠ .gt ↔ o = .lt ∨ o = .eq := by
  cases o <;> simp

theorem rkLe_refl (k : Bool × Bool × Bool × Int × Int) : relocateKeyLe k k = true := by
  have h := cmpOk_relocateKeyCmp.swap_eq k k
  rw [relocateKeyLe]
  cases he : relocateKeyCmp k k <;> rw [he] at h <;> simp [Ordering.swap] at h <;> simp_all

theorem rkLe_total (a b : Bool × Bool × Bool × Int × Int) :
    relocateKeyLe a b = true ∨ relocateKeyLe b a = true := by
  have h := cmpOk_relocateKeyCmp.swap_eq a b
  rw [relocateKeyLe, relocateKeyLe, decide_eq_true_eq, decide_eq_true_eq]
  cases he : relocateKeyCmp b a <;> rw [he] at h <;> simp [Ordering.swap] at h <;>
    rw [h] <;> decide

theorem rkLe_trans {a b d : Bool × Bool × Bool × Int × Int}
    (hab : relocateKeyLe a b = true) (hbd : relocateKeyLe b d = true) :
    relocateKeyLe a d = true := by
  rw [relocateKeyLe, decide_eq_true_eq, ord_ne_gt] at hab hbd ⊢
  rcases hab with hab | hab <;> rcases hbd with hbd | hbd
  · exact Or.inl (cmpOk_relocateKeyCmp.lt_trans a b d hab hbd)
  · exact Or.inl (by rw [cmpOk_relocateKeyCmp.eq_substR a b d hbd]; exact hab)
  · exact Or.inl (by rw [cmpOk_relocateKeyCmp.eq_substL a b d hab]; exact hbd)
  · exact Or.inr (by rw [cmpOk_relocateKeyCmp.eq_substL a b d hab]; exact hbd)

theorem rkMax_eq_foldl (l : List NodeState) :
    maxByKeyLast relocateKey relocateKeyLe l = List.foldl rkStep none l := by
  rw [maxByKeyLast]
  congr 1
  funext acc x
  cases acc <;> rfl

theorem rkFold_aux (l : List NodeState) : ∀ acc m : NodeState,
    List.foldl rkStep (some acc) l = some m →
    (m = acc ∨ m ∈ l)
      ∧ relocateKeyLe (relocateKey acc) (relocateKey m) = true
      ∧ ∀ x ∈ l, relocateKeyLe (relocateKey x) (relocateKey m) = true := by
  induction l with
  | nil =>
    intro acc m h
    simp only [List.foldl_nil, Option.some.injEq] at h
    subst h
    exact ⟨Or.inl rfl, rkLe_refl _, by intro x hx; cases hx⟩
  | cons x xs ih =>
    intro acc m h
    rw [List.foldl_cons] at h
    have hstep : rkStep (some acc) x
        = if relocateKeyLe (relocateKey acc) (relocateKey x) = true then some x
          else some acc := rfl
    rw [hstep] at h
    by_cases hle : relocateKeyLe (relocateKey acc) (relocateKey x) = true
    · rw [if_pos hle] at h
      obtain ⟨hm, hxm, hall⟩ := ih x m h
      refine ⟨?_, rkLe_trans hle hxm, ?_⟩
      · rcases hm with rfl | hm
        · exact Or.inr (List.mem_cons_self _ _)
        · exact Or.inr (List.mem_cons_of_mem _ hm)
      · intro y hy
        rcases List.mem_cons.mp hy with rfl | hy
        · exact hxm
        · exact hall y hy
    · rw [if_neg hle] at h
      obtain ⟨hm, ham, hall⟩ := ih acc m h
      have hxa : relocateKeyLe (relocateKey x) (relocateKey acc) = true := by
        rcases rkLe_total (relocateKey acc) (relocateKey x) with h1 | h1
        · exact absurd h1 hle
        · exact h1
      refine ⟨?_, ham, ?_⟩
      · rcases hm with rfl | hm
        · exact Or.inl rfl
        · exact Or.inr (List.mem_cons_of_mem _ hm)
      · intro y hy
        rcases List.mem_cons.mp hy with rfl | hy
        · exact rkLe_trans hxa ham
        · exact hall y hy

theorem rkFold_ne_none (l : List NodeState) : ∀ acc : NodeState,
    List.foldl rkStep (some acc) l ≠ none := by
  induction l with
  | nil =>
    intro acc h
    simp only [List.foldl_nil] at h
    cases h
  | cons x xs ih =>
    intro acc h
    rw [List.foldl_cons] at h
    have hstep : rkStep (some acc) x
        = if relocateKeyLe (relocateKey acc) (relocateKey x) = true then some x
          else some acc := rfl
    rw [hstep] at h
    by_cases hle : relocateKeyLe (relocateKey acc) (relocateKey x) = true
    · rw [if_pos hle] at h
      exact ih x h
    · rw [if_neg hle] at h
      exact ih acc h

theorem rkMax_eq_none_iff (l : List NodeState) :
    maxByKeyLast relocateKey relocateKeyLe l = none ↔ l = [] := by
  rw [rkMax_eq_foldl]
  cases l with
  | nil => simp
  | cons x xs =>
    rw [List.foldl_cons]
    have hstep : rkStep none x = some x := rfl
    rw [hstep]
    constructor
    · intro h
      exact absurd h (rkFold_ne_none xs x)
    · intro h
      cases h

theorem rkMax_spec (l : List NodeState) (m : NodeState)
    (h : maxByKeyLast relocateKey relocateKeyLe l = some m) :
    m ∈ l ∧ ∀ x ∈ l, relocateKeyLe (relocateKey x) (relocateKey m) = true := by
  rw [rkMax_eq_foldl] at h
  cases l with
  | nil =>
    simp only [List.foldl_nil] at h
    cases h
  | cons x xs =>
    rw [List.foldl_cons] at h
    have hstep : rkStep none x = some x := rfl
    rw [hstep] at h
    obtain ⟨hm, hxm, hall⟩ := rkFold_aux xs x m h
    constructor
    · rcases hm with rfl | hm
      · exact List.mem_cons_self _ _
      · exact List.mem_cons_of_mem _ hm
    · intro y hy
      rcases List.mem_cons.mp hy with rfl | hy
      · exact hxm
      · exact hall y hy

theorem cmpAttributes_eq_iff (x y : Attributes) : cmpAttributes x y = .eq ↔ x = y := by
  rw [cmpAttributes, then_eq_eq, cmpInt_eq_iff, cmpInt_eq_iff]
  constructor
  · rintro ⟨h1, h2⟩
    cases x
    cases y
    simp_all
  · rintro rfl
    exact ⟨rfl, rfl⟩

theorem crInsert_snd_of_not_contains (c : Candidate) (v : Int) (m : List (Candidate × Int))
    (h : crContains m c = false) : (crInsert c v m).2 = none := by
  induction m with
  | nil => rfl
  | cons p rest ih =>
    obtain ⟨c', v'⟩ := p
    have h' : ((c', v') :: rest).any (fun p => p.1 == c) = false := h
    simp only [List.any_cons, Bool.or_eq_false_iff] at h'
    obtain ⟨h1, h2⟩ := h'
    simp only [crInsert]
    cases hcmp : cmpAttributes c.attrs c'.attrs
    · rfl
    · exfalso
      have hceq : c = c' := by
        have hat := (cmpAttributes_eq_iff c.attrs c'.attrs).mp hcmp
        cases c
        cases c'
        simp_all
      rw [hceq] at h1
      simp at h1
    · exact ih h2

/-- Claim C8: on consensus of `ParsecVote::CheckRelocate`, `StartRelocateSrc`
selects among the nodes that are in a relocating state, are not elders and are
not already tracked in `already_relocating`, the maximum under the key
`(state == RelocatingAgeIncrease, state == RelocatingHop,
state == RelocatingBackOnline, age, name)`; if such a node exists it emits
`Rpc::ExpectCandidate` for it and inserts it into `already_relocating` with
count 0; afterwards every tracked entry's count is incremented by 1 and
entries whose count reaches 3 or more are dropped. -/
theorem c8_check_relocate (s s' : MemberState) (r : TryResult)
    (h : StartRelocateSrc.try_next s (.ParsecConsensus .CheckRelocate) = some (s', r)) :
    r = .Handled ∧
    (((∀ st ∈ alValues s.action.our_current_nodes,
         ¬(st.state.is_relocating = true ∧ st.is_elder = false ∧
           crContains s.start_relocate_src.already_relocating ⟨st.node.attrs⟩ = false)) ∧
       s' = { s with start_relocate_src :=
         ⟨agedTracking s.start_relocate_src.already_relocating⟩ }) ∨
     (∃ st ∈ alValues s.action.our_current_nodes,
        st.state.is_relocating = true ∧ st.is_elder = false ∧
        crContains s.start_relocate_src.already_relocating ⟨st.node.attrs⟩ = false ∧
        (∀ x ∈ alValues s.action.our_current_nodes,
           x.state.is_relocating = true → x.is_elder = false →
           crContains s.start_relocate_src.already_relocating ⟨x.node.attrs⟩ = false →
           relocateKeyLe (relocateKey x) (relocateKey st) = true) ∧
        s' = { s with
          action := send_rpc s.action (.ExpectCandidate ⟨st.node.attrs⟩)
          start_relocate_src := ⟨agedTracking
            (crInsert ⟨st.node.attrs⟩ 0 s.start_relocate_src.already_relocating).1⟩ })) := by
  simp only [StartRelocateSrc.try_next, Option.map_eq_some'] at h
  obtain ⟨s1, hs1, hmap⟩ := h
  obtain ⟨hs', hr⟩ := Prod.mk.injEq .. |>.mp hmap
  subst hr
  subst hs'
  refine ⟨rfl, ?_⟩
  rw [StartRelocateSrc.check_need_relocate] at hs1
  cases hg : get_best_relocating_node_and_target s.action
      s.start_relocate_src.already_relocating with
  | none =>
    rw [hg] at hs1
    simp only [Option.some.injEq] at hs1
    subst hs1
    refine Or.inl ⟨?_, rfl⟩
    have hpool : (alValues s.action.our_current_nodes).filter
        (relocatingFilter s.start_relocate_src.already_relocating) = [] := by
      rw [get_best_relocating_node_and_target, Option.map_eq_none'] at hg
      exact (rkMax_eq_none_iff _).mp hg
    rintro st hst ⟨hrel, hel, htr⟩
    have hmem : st ∈ (alValues s.action.our_current_nodes).filter
        (relocatingFilter s.start_relocate_src.already_relocating) := by
      rw [List.mem_filter]
      exact ⟨hst, by simp [relocatingFilter, hrel, hel, htr]⟩
    rw [hpool] at hmem
    cases hmem
  | some pair =>
    obtain ⟨c, sec⟩ := pair
    rw [hg] at hs1
    rw [get_best_relocating_node_and_target, Option.map_eq_some'] at hg
    obtain ⟨st, hmax, hpair⟩ := hg
    obtain ⟨hc, hsec⟩ := Prod.mk.injEq .. |>.mp hpair
    obtain ⟨hmem, hall⟩ := rkMax_spec _ st hmax
    rw [List.mem_filter] at hmem
    obtain ⟨hmem, hfilt⟩ := hmem
    simp only [relocatingFilter, Bool.and_eq_true, Bool.not_eq_true'] at hfilt
    obtain ⟨htr, hrel, hel⟩ := hfilt
    have hnone : (crInsert c 0 s.start_relocate_src.already_relocating).2 = none := by
      rw [← hc]
      exact crInsert_snd_of_not_contains _ _ _ htr
    simp only [withAction] at hs1
    rw [hnone] at hs1
    rw [if_neg (by simp)] at hs1
    simp only [Option.some.injEq] at hs1
    subst hs1
    refine Or.inr ⟨st, hmem, hrel, hel, htr, ?_, ?_⟩
    · intro x hx h1 h2 h3
      apply hall
      rw [List.mem_filter]
      exact ⟨hx, by simp [relocatingFilter, h1, h2, h3]⟩
    · rw [hc]
      rfl

theorem c8_witness :
    TryResult.Handled = TryResult.Handled ∧
    (((∀ st ∈ alValues c8ExState.action.our_current_nodes,
         ¬(st.state.is_relocating = true ∧ st.is_elder = false ∧
           crContains c8ExState.start_relocate_src.already_relocating ⟨st.node.attrs⟩
             = false)) ∧
       c8OutState = { c8ExState with start_relocate_src :=
         ⟨agedTracking c8ExState.start_relocate_src.already_relocating⟩ }) ∨
     (∃ st ∈ alValues c8ExState.action.our_current_nodes,
        st.state.is_relocating = true ∧ st.is_elder = false ∧
        crContains c8ExState.start_relocate_src.already_relocating ⟨st.node.attrs⟩ = false ∧
        (∀ x ∈ alValues c8ExState.action.our_current_nodes,
           x.state.is_relocating = true → x.is_elder = false →
           crContains c8ExState.start_relocate_src.already_relocating ⟨x.node.attrs⟩ = false →
           relocateKeyLe (relocateKey x) (relocateKey st) = true) ∧
        c8OutState = { c8ExState with
          action := send_rpc c8ExState.action (.ExpectCandidate ⟨st.node.attrs⟩)
          start_relocate_src := ⟨agedTracking
            (crInsert ⟨st.node.attrs⟩ 0
              c8ExState.start_relocate_src.already_relocating).1⟩ })) :=
  c8_check_relocate c8ExState c8OutState .Handled (by decide)

/-! Claim C7: per-step monotonicity machinery. -/

theorem workStep_of_eq {a b : InnerAction}
    (h : b.our_current_nodes = a.our_current_nodes) : workStep a b := by
  intro n ns ns' h1 h2 _
  rw [h, h1] at h2
  cases h2
  exact Or.inl le_rfl

theorem C7Rel_mk {s s' : MemberState}
    (hn : s.action.next_target_interval ≤ s'.action.next_target_interval)
    (hv : s'.action.our_section = s.action.our_section)
    (hce : s'.start_merge_split_and_change_elders.sub_routine_process_elder_change.change_elder
         = s.start_merge_split_and_change_elders.sub_routine_process_elder_change.change_elder)
    (hw : workStep s.action s'.action) : C7Rel s s' := by
  refine ⟨hn, ?_, hw⟩
  intro hinv
  refine ⟨by rw [hv], ?_⟩
  intro ce hce'
  rw [hce] at hce'
  rw [hv]
  exact hinv ce hce'

theorem C7Rel_frame {s s' : MemberState}
    (hn : s'.action.next_target_interval = s.action.next_target_interval)
    (hv : s'.action.our_section = s.action.our_section)
    (hce : s'.start_merge_split_and_change_elders.sub_routine_process_elder_change.change_elder
         = s.start_merge_split_and_change_elders.sub_routine_process_elder_change.change_elder)
    (ht : s'.action.our_current_nodes = s.action.our_current_nodes) : C7Rel s s' :=
  C7Rel_mk (le_of_eq hn.symm) hv hce (workStep_of_eq ht)

theorem C7Rel_refl (s : MemberState) : C7Rel s s :=
  C7Rel_frame rfl rfl rfl rfl

theorem twp_refl (a : NodeTable) : tableWorkPreserved a a := fun _ => rfl

theorem twp_trans {a b c : NodeTable} (h1 : tableWorkPreserved a b)
    (h2 : tableWorkPreserved b c) : tableWorkPreserved a c :=
  fun x => (h2 x).trans (h1 x)

theorem workStep_of_twp {a b : InnerAction}
    (h : tableWorkPreserved a.our_current_nodes b.our_current_nodes) : workStep a b := by
  intro n ns ns' h1 h2 _
  have hx := h n
  rw [h1, h2] at hx
  simp only [Option.map_some', Option.some.injEq, Prod.mk.injEq] at hx
  exact Or.inl (le_of_eq hx.1.symm)

theorem twp_alSet {m : NodeTable} {k : Int} {ns0 v : NodeState}
    (hl : alLookup k m = some ns0) (hw : v.work_units_done = ns0.work_units_done)
    (hnode : v.node = ns0.node) : tableWorkPreserved m (alSet k v m) := by
  intro x
  rw [alLookup_alSet]
  by_cases hx : x = k
  · rw [if_pos hx, hl, hx, hl]
    simp [hw, hnode]
  · rw [if_neg hx]

theorem set_node_state_twp {ia ia' : InnerAction} {name : Int} {st : State}
    (h : ia.set_node_state name st = some ia') :
    tableWorkPreserved ia.our_current_nodes ia'.our_current_nodes
    ∧ ia'.our_section = ia.our_section
    ∧ ia'.next_target_interval = ia.next_target_interval := by
  rw [InnerAction.set_node_state] at h
  cases hl : alLookup name ia.our_current_nodes with
  | none =>
    rw [hl] at h
    cases h
  | some ns =>
    rw [hl] at h
    simp only [Option.some.injEq] at h
    subst h
    exact ⟨twp_alSet hl rfl rfl, rfl, rfl⟩

theorem set_elder_state_twp {ia ia' : InnerAction} {name : Int} {b : Bool}
    (h : ia.set_elder_state name b = some ia') :
    tableWorkPreserved ia.our_current_nodes ia'.our_current_nodes
    ∧ ia'.our_section = ia.our_section
    ∧ ia'.next_target_interval = ia.next_target_interval := by
  rw [InnerAction.set_elder_state] at h
  cases hl : alLookup name ia.our_current_nodes with
  | none =>
    rw [hl] at h
    cases h
  | some ns =>
    rw [hl] at h
    simp only [Option.some.injEq] at h
    subst h
    exact ⟨twp_alSet hl rfl rfl, rfl, rfl⟩

theorem C7Rel_withAction_twp {s : MemberState} {ia' : InnerAction}
    (h1 : tableWorkPreserved s.action.our_current_nodes ia'.our_current_nodes)
    (h2 : ia'.our_section = s.action.our_section)
    (h3 : ia'.next_target_interval = s.action.next_target_interval) :
    C7Rel s (withAction s ia') :=
  C7Rel_mk (le_of_eq h3.symm) h2 rfl (workStep_of_twp h1)

theorem C7Rel_set_node_state {s : MemberState} {ia' : InnerAction} {name : Int} {st : State}
    (h : s.action.set_node_state name st = some ia') : C7Rel s (withAction s ia') := by
  obtain ⟨h1, h2, h3⟩ := set_node_state_twp h
  exact C7Rel_withAction_twp h1 h2 h3

theorem add_node_workStep {ia ia' : InnerAction} {ns : NodeState}
    (hs : alSorted ia.our_current_nodes)
    (h : ia.add_node ns = some ia') :
    workStep ia ia'
    ∧ ia'.our_section = ia.our_section
    ∧ ia'.next_target_interval = ia.next_target_interval := by
  rw [InnerAction.add_node] at h
  rcases hI : alInsert ns.node.name ns
      (push ia (NodeChange.AddWithState ns.node ns.state).to_event).our_current_nodes
    with ⟨m', old⟩
  rw [hI] at h
  rw [show (push ia (NodeChange.AddWithState ns.node ns.state).to_event).our_current_nodes
        = ia.our_current_nodes from rfl] at hI
  cases old with
  | some _ => cases h
  | none =>
    simp only [Option.some.injEq] at h
    subst h
    refine ⟨?_, rfl, rfl⟩
    intro n ns0 ns' h1 h2 _
    left
    have hm : m' = (alInsert ns.node.name ns ia.our_current_nodes).1 := by rw [hI]
    rw [show ({ push ia (NodeChange.AddWithState ns.node ns.state).to_event
          with our_current_nodes := m' } : InnerAction).our_current_nodes = m' from rfl,
        hm, alLookup_alInsert] at h2
    by_cases hn : n = ns.node.name
    · exfalso
      have hsnd : (alInsert ns.node.name ns ia.our_current_nodes).2
          = alLookup ns.node.name ia.our_current_nodes := alInsert_snd hs
      rw [hI] at hsnd
      rw [hn, ← hsnd] at h1
      cases h1
    · rw [if_neg hn, h1] at h2
      cases h2
      exact le_rfl

theorem remove_node_workStep {ia ia' : InnerAction} {name : Int}
    (hs : alSorted ia.our_current_nodes)
    (h : ia.remove_node name = some ia') :
    workStep ia ia'
    ∧ ia'.our_section = ia.our_section
    ∧ ia'.next_target_interval = ia.next_target_interval := by
  rw [InnerAction.remove_node] at h
  rcases hR : alRemove name (push ia (NodeChange.Remove name).to_event).our_current_nodes
    with ⟨m', old⟩
  rw [hR] at h
  rw [show (push ia (NodeChange.Remove name).to_event).our_current_nodes
        = ia.our_current_nodes from rfl] at hR
  cases old with
  | none => cases h
  | some _ =>
    simp only [Option.some.injEq] at h
    subst h
    refine ⟨?_, rfl, rfl⟩
    intro n ns0 ns' h1 h2 _
    left
    have hm : m' = (alRemove name ia.our_current_nodes).1 := by rw [hR]
    rw [show ({ push ia (NodeChange.Remove name).to_event
          with our_current_nodes := m' } : InnerAction).our_current_nodes = m' from rfl,
        hm, alLookup_alRemove hs] at h2
    by_cases hn : n = name
    · rw [if_pos hn] at h2
      cases h2
    · rw [if_neg hn, h1] at h2
      cases h2
      exact le_rfl

theorem replace_node_workStep {ia ia' : InnerAction} {name : Int} {ns : NodeState}
    (hs : alSorted ia.our_current_nodes)
    (hw0 : ns.work_units_done = 0)
    (h : ia.replace_node name ns = some ia') :
    workStep ia ia'
    ∧ ia'.our_section = ia.our_section
    ∧ ia'.next_target_interval = ia.next_target_interval := by
  rw [InnerAction.replace_node] at h
  split_ifs at h with hcond
  simp only [Option.some.injEq] at h
  subst h
  refine ⟨?_, rfl, rfl⟩
  intro n ns0 ns' h1 h2 _
  rw [show (push ia (NodeChange.ReplaceWith name ns.node ns.state).to_event).our_current_nodes
        = ia.our_current_nodes from rfl] at h2
  rw [alLookup_alInsert] at h2
  by_cases hn : n = ns.node.name
  · rw [if_pos hn] at h2
    cases h2
    right
    exact hw0
  · rw [if_neg hn, alLookup_alRemove hs] at h2
    by_cases hn2 : n = name
    · rw [if_pos hn2] at h2
      cases h2
    · rw [if_neg hn2, h1] at h2
      cases h2
      exact Or.inl le_rfl

theorem applyElderChanges_twp (changes : List (Node × Bool)) :
    ∀ ia ia' : InnerAction, applyElderChanges ia changes = some ia' →
    tableWorkPreserved ia.our_current_nodes ia'.our_current_nodes
    ∧ ia'.our_section = ia.our_section
    ∧ ia'.next_target_interval = ia.next_target_interval := by
  induction changes with
  | nil =>
    intro ia ia' h
    rw [applyElderChanges] at h
    simp only [Option.some.injEq] at h
    subst h
    exact ⟨twp_refl _, rfl, rfl⟩
  | cons p rest ih =>
    intro ia ia' h
    obtain ⟨node, b⟩ := p
    rw [applyElderChanges] at h
    cases hset : ia.set_elder_state node.name b with
    | none =>
      rw [hset] at h
      cases h
    | some ia1 =>
      rw [hset] at h
      obtain ⟨h1, h2, h3⟩ := set_elder_state_twp hset
      obtain ⟨h4, h5, h6⟩ := ih ia1 ia' h
      exact ⟨twp_trans h1 h4, h5.trans h2, h6.trans h3⟩

theorem mark_elder_change_facts {ia ia' : InnerAction} {ce : ChangeElder}
    (h : mark_elder_change ia ce = some ia') :
    tableWorkPreserved ia.our_current_nodes ia'.our_current_nodes
    ∧ ia'.our_section = ce.new_section
    ∧ ia'.next_target_interval = ia.next_target_interval := by
  rw [mark_elder_change] at h
  cases ha : applyElderChanges ia ce.changes with
  | none =>
    rw [ha] at h
    cases h
  | some ia1 =>
    rw [ha] at h
    simp only [Option.some.injEq] at h
    subst h
    obtain ⟨h1, h2, h3⟩ := applyElderChanges_twp ce.changes ia ia1 ha
    exact ⟨h1, rfl, h3⟩

theorem check_elder_version {ia : InnerAction} {ce : ChangeElder}
    (h : check_elder ia = some ce) :
    ce.new_section.version = ia.our_section.version + 1 := by
  rw [check_elder] at h
  split_ifs at h
  cases h
  rfl

theorem foldl_vote_parsec_frame (votes : List ParsecVote) :
    ∀ ia : InnerAction,
    (votes.foldl vote_parsec ia).our_current_nodes = ia.our_current_nodes
    ∧ (votes.foldl vote_parsec ia).our_section = ia.our_section
    ∧ (votes.foldl vote_parsec ia).next_target_interval = ia.next_target_interval := by
  induction votes with
  | nil => intro ia; exact ⟨rfl, rfl, rfl⟩
  | cons v rest ih =>
    intro ia
    rw [List.foldl_cons]
    obtain ⟨h1, h2, h3⟩ := ih (vote_parsec ia v)
    exact ⟨h1, h2, h3⟩

theorem outcome_eq {a s' : MemberState} {b r : TryResult}
    (h : some (a, b) = (some (s', r) : Option (MemberState × TryResult))) :
    s' = a ∧ r = b := by
  simp only [Option.some.injEq, Prod.mk.injEq] at h
  exact ⟨h.1.symm, h.2.symm⟩

theorem pair_eq {a s' : MemberState} {b r : TryResult}
    (h : (a, b) = (s', r)) : s' = a ∧ r = b := by
  cases h
  exact ⟨rfl, rfl⟩

theorem coo_c7 {s s' : MemberState} {w : WaitedEvent} {r : TryResult}
    (h : CheckOnlineOffline.try_next s w = some (s', r)) : C7Rel s s' := by
  rcases w with rpc | v | le
  · simp only [CheckOnlineOffline.try_next] at h
    obtain ⟨rfl, rfl⟩ := outcome_eq h
    exact C7Rel_refl _
  · cases v <;>
      simp only [CheckOnlineOffline.try_next, withActionOpt, Option.map_eq_some'] at h
    case Offline node =>
      obtain ⟨t, ⟨b, hb, rfl⟩, hpair⟩ := h
      obtain ⟨rfl, rfl⟩ := pair_eq hpair
      exact C7Rel_set_node_state hb
    case BackOnline node =>
      obtain ⟨t, ⟨b, hb, rfl⟩, hpair⟩ := h
      obtain ⟨rfl, rfl⟩ := pair_eq hpair
      exact C7Rel_set_node_state hb
    all_goals
      obtain ⟨rfl, rfl⟩ := outcome_eq h
      exact C7Rel_refl _
  · cases le
    case NodeDetectedOffline node =>
      simp only [CheckOnlineOffline.try_next] at h
      obtain ⟨rfl, rfl⟩ := outcome_eq h
      exact C7Rel_frame rfl rfl rfl rfl
    case NodeDetectedBackOnline node =>
      simp only [CheckOnlineOffline.try_next] at h
      obtain ⟨rfl, rfl⟩ := outcome_eq h
      exact C7Rel_frame rfl rfl rfl rfl
    all_goals
      simp only [CheckOnlineOffline.try_next] at h
      obtain ⟨rfl, rfl⟩ := outcome_eq h
      exact C7Rel_refl _

theorem psplit_c7 {s s' : MemberState} {w : WaitedEvent} {r : TryResult}
    (h : ProcessSplit.try_next s w = some (s', r)) : C7Rel s s' := by
  rcases w with rpc | v | le
  · simp only [ProcessSplit.try_next] at h
    obtain ⟨rfl, rfl⟩ := outcome_eq h
    exact C7Rel_refl _
  · rw [ProcessSplit.try_next] at h
    split_ifs at h with hmem
    · simp only [] at h
      split_ifs at h with hempty
      · obtain ⟨rfl, rfl⟩ := outcome_eq h
        exact C7Rel_frame rfl rfl rfl rfl
      · obtain ⟨rfl, rfl⟩ := outcome_eq h
        exact C7Rel_frame rfl rfl rfl rfl
    · obtain ⟨rfl, rfl⟩ := outcome_eq h
      exact C7Rel_refl _
  · simp only [ProcessSplit.try_next] at h
    obtain ⟨rfl, rfl⟩ := outcome_eq h
    exact C7Rel_refl _

theorem psplit_g_c7 {s s' : MemberState} {w : WaitedEvent} {r : TryResult}
    (h : ProcessSplit.try_next_guarded s w = some (s', r)) : C7Rel s s' := by
  rw [ProcessSplit.try_next_guarded] at h
  split_ifs at h
  · exact psplit_c7 h
  · obtain ⟨rfl, rfl⟩ := outcome_eq h
    exact C7Rel_refl _

theorem check_sibling_frame {t t' : MemberState}
    (h : ProcessMerge.check_sibling_merge_info t = some t') :
    t'.action.our_current_nodes = t.action.our_current_nodes
    ∧ t'.action.our_section = t.action.our_section
    ∧ t'.action.next_target_interval = t.action.next_target_interval
    ∧ t'.start_merge_split_and_change_elders = t.start_merge_split_and_change_elders := by
  rw [ProcessMerge.check_sibling_merge_info] at h
  split_ifs at h with hsib
  · rw [merge_sibling_info_to_new_section] at h
    cases hmi : t.action.merge_infos with
    | none =>
      rw [hmi] at h
      cases h
    | some ms =>
      rw [hmi] at h
      simp only [Option.some.injEq] at h
      subst h
      exact ⟨rfl, rfl, rfl, rfl⟩
  · simp only [Option.some.injEq] at h
    subst h
    exact ⟨rfl, rfl, rfl, rfl⟩

theorem pmerge_c7 {s s' : MemberState} {w : WaitedEvent} {r : TryResult}
    (h : ProcessMerge.try_next s w = some (s', r)) : C7Rel s s' := by
  rcases w with rpc | v | le
  · simp only [ProcessMerge.try_next] at h
    obtain ⟨rfl, rfl⟩ := outcome_eq h
    exact C7Rel_refl _
  · cases v
    case NewSectionInfo si =>
      simp only [ProcessMerge.try_next] at h
      obtain ⟨rfl, rfl⟩ := outcome_eq h
      exact C7Rel_frame rfl rfl rfl rfl
    case NeighbourMerge mi =>
      simp only [ProcessMerge.try_next, Option.map_eq_some'] at h
      obtain ⟨t, ht, hpair⟩ := h
      obtain ⟨rfl, rfl⟩ := pair_eq hpair
      obtain ⟨h1, h2, h3, h4⟩ := check_sibling_frame ht
      exact C7Rel_frame (h3.trans rfl) (h2.trans rfl) (by rw [h4]; rfl) (h1.trans rfl)
    all_goals
      simp only [ProcessMerge.try_next] at h
      obtain ⟨rfl, rfl⟩ := outcome_eq h
      exact C7Rel_refl _
  · simp only [ProcessMerge.try_next] at h
    obtain ⟨rfl, rfl⟩ := outcome_eq h
    exact C7Rel_refl _

theorem pmerge_g_c7 {s s' : MemberState} {w : WaitedEvent} {r : TryResult}
    (h : ProcessMerge.try_next_guarded s w = some (s', r)) : C7Rel s s' := by
  rw [ProcessMerge.try_next_guarded] at h
  split_ifs at h
  · exact pmerge_c7 h
  · obtain ⟨rfl, rfl⟩ := outcome_eq h
    exact C7Rel_refl _

theorem pec_c7 {s s' : MemberState} {w : WaitedEvent} {r : TryResult}
    (h : ProcessElderChange.try_next s w = some (s', r)) : C7Rel s s' := by
  rcases w with rpc | v | le
  · simp only [ProcessElderChange.try_next] at h
    obtain ⟨rfl, rfl⟩ := outcome_eq h
    exact C7Rel_refl _
  · rw [ProcessElderChange.try_next] at h
    split_ifs at h with hmem
    · simp only [] at h
      split_ifs at h with hempty
      · split at h
        · cases h
        · rename_i t heq
          obtain ⟨rfl, rfl⟩ := outcome_eq h
          rw [ProcessElderChange.mark_elder_change_step] at heq
          simp only [] at heq
          cases hce : s.start_merge_split_and_change_elders.sub_routine_process_elder_change.change_elder with
          | none =>
            rw [hce] at heq
            simp at heq
          | some ce =>
            rw [hce] at heq
            simp only [withActionOpt, Option.map_eq_some'] at heq
            obtain ⟨ia', hm, rfl⟩ := heq
            obtain ⟨htw, hsec, hnti⟩ := mark_elder_change_facts hm
            refine ⟨?_, ?_, ?_⟩
            · exact le_of_eq hnti.symm
            · intro hinv
              have hver := hinv ce hce
              constructor
              · show s.action.our_section.version ≤ ia'.our_section.version
                rw [hsec, hver]
                omega
              · intro ce' hce'
                have h0 : (none : Option ChangeElder) = some ce' := hce'
                cases h0
            · exact workStep_of_twp htw
      · obtain ⟨rfl, rfl⟩ := outcome_eq h
        exact C7Rel_frame rfl rfl rfl rfl
    · obtain ⟨rfl, rfl⟩ := outcome_eq h
      exact C7Rel_refl _
  · simp only [ProcessElderChange.try_next] at h
    obtain ⟨rfl, rfl⟩ := outcome_eq h
    exact C7Rel_refl _

theorem pec_g_c7 {s s' : MemberState} {w : WaitedEvent} {r : TryResult}
    (h : ProcessElderChange.try_next_guarded s w = some (s', r)) : C7Rel s s' := by
  rw [ProcessElderChange.try_next_guarded] at h
  split_ifs at h
  · exact pec_c7 h
  · obtain ⟨rfl, rfl⟩ := outcome_eq h
    exact C7Rel_refl _

theorem C7Rel_start_elder_loop {s : MemberState} {ce : ChangeElder}
    (hver : ce.new_section.version = s.action.our_section.version + 1) :
    C7Rel s (ProcessElderChange.start_event_loop s ce) := by
  obtain ⟨h1, h2, h3⟩ := foldl_vote_parsec_frame (get_elder_change_votes ce) s.action
  refine ⟨?_, ?_, ?_⟩
  · exact le_of_eq h3.symm
  · intro hinv
    constructor
    · exact le_of_eq (congrArg SectionInfo.version h2).symm
    · intro ce' hce'
      have h0 : (some ce : Option ChangeElder) = some ce' := hce'
      cases h0
      have hv2 : (ProcessElderChange.start_event_loop s ce).action.our_section
          = s.action.our_section := h2
      rw [hv2]
      exact hver
  · exact workStep_of_eq h1

theorem C7Rel_split_loop (s : MemberState) : C7Rel s (ProcessSplit.start_event_loop s) := by
  obtain ⟨h1, h2, h3⟩ := foldl_vote_parsec_frame (get_section_split_votes s.action) s.action
  exact C7Rel_mk (le_of_eq h3.symm) h2 rfl (workStep_of_eq h1)

theorem C7Rel_merge_loop {s t : MemberState}
    (h : ProcessMerge.start_event_loop s = some t) : C7Rel s t := by
  rw [ProcessMerge.start_event_loop] at h
  simp only [] at h
  obtain ⟨h1, h2, h3, h4⟩ := check_sibling_frame h
  exact C7Rel_frame (h3.trans rfl) (h2.trans rfl) (by rw [h4]; rfl) (h1.trans rfl)

theorem C7Rel_check_elder_flow (s : MemberState) :
    C7Rel s (StartMergeSplitAndChangeElders.check_elder_flow s) := by
  rw [StartMergeSplitAndChangeElders.check_elder_flow]
  cases hce : check_elder s.action with
  | some ce => exact C7Rel_start_elder_loop (check_elder_version hce)
  | none =>
    split_ifs with hsplit
    · exact C7Rel_split_loop s
    · exact C7Rel_frame rfl rfl rfl rfl

theorem C7Rel_check_merge {s t : MemberState}
    (h : StartMergeSplitAndChangeElders.check_merge s = some t) : C7Rel s t := by
  rw [StartMergeSplitAndChangeElders.check_merge] at h
  split_ifs at h with hm
  · exact C7Rel_merge_loop h
  · simp only [Option.some.injEq] at h
    subst h
    exact C7Rel_check_elder_flow s

theorem smsce_c7 {s s' : MemberState} {w : WaitedEvent} {r : TryResult}
    (h : StartMergeSplitAndChangeElders.try_next s w = some (s', r)) : C7Rel s s' := by
  rcases w with rpc | v | le
  · cases rpc
    case Merge si =>
      simp only [StartMergeSplitAndChangeElders.try_next] at h
      obtain ⟨rfl, rfl⟩ := outcome_eq h
      exact C7Rel_frame rfl rfl rfl rfl
    all_goals
      simp only [StartMergeSplitAndChangeElders.try_next] at h
      obtain ⟨rfl, rfl⟩ := outcome_eq h
      exact C7Rel_refl _
  · cases v
    case NeighbourMerge mi =>
      simp only [StartMergeSplitAndChangeElders.try_next] at h
      obtain ⟨rfl, rfl⟩ := outcome_eq h
      exact C7Rel_frame rfl rfl rfl rfl
    case CheckElder =>
      simp only [StartMergeSplitAndChangeElders.try_next, Option.map_eq_some'] at h
      obtain ⟨t, ht, hpair⟩ := h
      obtain ⟨rfl, rfl⟩ := pair_eq hpair
      exact C7Rel_check_merge ht
    all_goals
      simp only [StartMergeSplitAndChangeElders.try_next] at h
      obtain ⟨rfl, rfl⟩ := outcome_eq h
      exact C7Rel_refl _
  · cases le
    case TimeoutCheckElder =>
      simp only [StartMergeSplitAndChangeElders.try_next] at h
      obtain ⟨rfl, rfl⟩ := outcome_eq h
      exact C7Rel_frame rfl rfl rfl rfl
    all_goals
      simp only [StartMergeSplitAndChangeElders.try_next] at h
      obtain ⟨rfl, rfl⟩ := outcome_eq h
      exact C7Rel_refl _

theorem check_need_relocate_frame {t t' : MemberState}
    (h : StartRelocateSrc.check_need_relocate t = some t') :
    t'.action.our_current_nodes = t.action.our_current_nodes
    ∧ t'.action.our_section = t.action.our_section
    ∧ t'.action.next_target_interval = t.action.next_target_interval
    ∧ t'.start_merge_split_and_change_elders = t.start_merge_split_and_change_elders := by
  rw [StartRelocateSrc.check_need_relocate] at h
  cases hg : get_best_relocating_node_and_target t.action
      t.start_relocate_src.already_relocating with
  | none =>
    rw [hg] at h
    simp only [Option.some.injEq] at h
    subst h
    exact ⟨rfl, rfl, rfl, rfl⟩
  | some pair =>
    obtain ⟨c, sec⟩ := pair
    rw [hg] at h
    simp only [] at h
    split_ifs at h
    simp only [Option.some.injEq] at h
    subst h
    exact ⟨rfl, rfl, rfl, rfl⟩

theorem relocate_src_c7 {s s' : MemberState} {w : WaitedEvent} {r : TryResult}
    (hs : alSorted s.action.our_current_nodes)
    (h : StartRelocateSrc.try_next s w = some (s', r)) : C7Rel s s' := by
  rcases w with rpc | v | le
  · cases rpc
    case RefuseCandidate c =>
      simp only [StartRelocateSrc.try_next] at h
      obtain ⟨rfl, rfl⟩ := outcome_eq h
      exact C7Rel_frame rfl rfl rfl rfl
    case RelocateResponse info =>
      simp only [StartRelocateSrc.try_next] at h
      obtain ⟨rfl, rfl⟩ := outcome_eq h
      exact C7Rel_frame rfl rfl rfl rfl
    all_goals
      simp only [StartRelocateSrc.try_next] at h
      obtain ⟨rfl, rfl⟩ := outcome_eq h
      exact C7Rel_refl _
  · cases v
    case CheckRelocate =>
      simp only [StartRelocateSrc.try_next, Option.map_eq_some'] at h
      obtain ⟨t, ht, hpair⟩ := h
      obtain ⟨rfl, rfl⟩ := pair_eq hpair
      obtain ⟨h1, h2, h3, h4⟩ := check_need_relocate_frame ht
      exact C7Rel_frame (h3.trans rfl) (h2.trans rfl) (by rw [show
        (StartRelocateSrc.update_wait_and_allow_resend t).start_merge_split_and_change_elders
          = t.start_merge_split_and_change_elders from rfl, h4]) (h1.trans rfl)
    case RefuseCandidate c =>
      simp only [StartRelocateSrc.try_next, StartRelocateSrc.on_refuse, Option.map_eq_some'] at h
      obtain ⟨t, ht, hpair⟩ := h
      obtain ⟨rfl, rfl⟩ := pair_eq hpair
      split_ifs at ht with hour
      · rw [StartRelocateSrc.allow_resend] at ht
        split at ht
        · cases ht
        · simp only [Option.some.injEq] at ht
          subst ht
          exact C7Rel_frame rfl rfl rfl rfl
      · simp only [Option.some.injEq] at ht
        subst ht
        exact C7Rel_refl _
    case RelocateResponse info =>
      simp only [StartRelocateSrc.try_next, StartRelocateSrc.on_relocate_response,
        Option.map_eq_some'] at h
      obtain ⟨t, ht, hpair⟩ := h
      obtain ⟨rfl, rfl⟩ := pair_eq hpair
      split_ifs at ht with hour
      · rw [StartRelocateSrc.set_relocated_and_prepare_info] at ht
        cases hset : set_candidate_relocated_state s.action info with
        | none =>
          rw [hset] at ht
          cases ht
        | some ia =>
          rw [hset] at ht
          simp only [Option.some.injEq] at ht
          subst ht
          obtain ⟨h1, h2, h3⟩ := set_node_state_twp hset
          exact C7Rel_withAction_twp h1 h2 h3
      · simp only [Option.some.injEq] at ht
        subst ht
        exact C7Rel_refl _
    case RelocatedInfoVote info =>
      simp only [StartRelocateSrc.try_next, withActionOpt, Option.map_eq_some'] at h
      obtain ⟨t, ⟨ia', hp, rfl⟩, hpair⟩ := h
      obtain ⟨rfl, rfl⟩ := pair_eq hpair
      obtain ⟨hw, hsec, hnti⟩ := remove_node_workStep
        (show alSorted (withAction s (send_rpc s.action
          (Rpc.RelocatedInfoRpc info))).action.our_current_nodes from hs) hp
      exact C7Rel_mk (le_of_eq hnti.symm) hsec rfl hw
    all_goals
      simp only [StartRelocateSrc.try_next] at h
      obtain ⟨rfl, rfl⟩ := outcome_eq h
      exact C7Rel_refl _
  · cases le
    case TimeoutCheckRelocate =>
      simp only [StartRelocateSrc.try_next] at h
      obtain ⟨rfl, rfl⟩ := outcome_eq h
      exact C7Rel_frame rfl rfl rfl rfl
    all_goals
      simp only [StartRelocateSrc.try_next] at h
      obtain ⟨rfl, rfl⟩ := outcome_eq h
      exact C7Rel_refl _

theorem decides_c7 {s s' : MemberState} {w : WaitedEvent} {r : TryResult}
    (h : StartDecidesOnNodeToRelocate.try_next s w = some (s', r)) : C7Rel s s' := by
  rcases w with rpc | v | le
  · simp only [StartDecidesOnNodeToRelocate.try_next] at h
    obtain ⟨rfl, rfl⟩ := outcome_eq h
    exact C7Rel_refl _
  · cases v
    case WorkUnitIncrement =>
      simp only [StartDecidesOnNodeToRelocate.try_next, Option.map_eq_some'] at h
      obtain ⟨t, ht, hpair⟩ := h
      obtain ⟨rfl, rfl⟩ := pair_eq hpair
      rw [StartDecidesOnNodeToRelocate.check_get_node_to_relocate] at ht
      split_ifs at ht with hrel
      · simp only [Option.some.injEq] at ht
        subst ht
        exact C7Rel_frame rfl rfl rfl rfl
      · cases hg : get_node_to_relocate
            (withAction s (increment_nodes_work_units s.action)).action with
        | none =>
          rw [hg] at ht
          simp only [Option.some.injEq] at ht
          subst ht
          exact C7Rel_frame rfl rfl rfl rfl
        | some c =>
          rw [hg] at ht
          simp only [withActionOpt, Option.map_eq_some'] at ht
          obtain ⟨ia', hset, rfl⟩ := ht
          obtain ⟨h1, h2, h3⟩ := set_node_state_twp hset
          exact C7Rel_mk (le_of_eq h3.symm) h2 rfl (workStep_of_twp h1)
    all_goals
      simp only [StartDecidesOnNodeToRelocate.try_next] at h
      obtain ⟨rfl, rfl⟩ := outcome_eq h
      exact C7Rel_refl _
  · cases le
    case TimeoutWorkUnit =>
      simp only [StartDecidesOnNodeToRelocate.try_next] at h
      obtain ⟨rfl, rfl⟩ := outcome_eq h
      exact C7Rel_frame rfl rfl rfl rfl
    all_goals
      simp only [StartDecidesOnNodeToRelocate.try_next] at h
      obtain ⟨rfl, rfl⟩ := outcome_eq h
      exact C7Rel_refl _

theorem cec_c7facts {ia ia' : InnerAction} {c : Candidate}
    (hs : alSorted ia.our_current_nodes)
    (h : consensused_expect_candidate ia c = some ia') :
    ia.next_target_interval ≤ ia'.next_target_interval
    ∧ ia'.our_section = ia.our_section
    ∧ workStep ia ia' := by
  rw [consensused_expect_candidate] at h
  cases hgw : get_waiting_candidate_info ia c with
  | some info =>
    rw [hgw] at h
    simp only [Option.some.injEq] at h
    subst h
    exact ⟨le_rfl, rfl, workStep_of_eq rfl⟩
  | none =>
    rw [hgw] at h
    cases hcnt : count_waiting_proofing_or_hop ia with
    | succ n =>
      rw [hcnt] at h
      simp only [Option.some.injEq] at h
      subst h
      exact ⟨le_rfl, rfl, workStep_of_eq rfl⟩
    | zero =>
      rw [hcnt] at h
      rw [add_node_waiting_candidate_info] at h
      simp only [] at h
      split at h
      · cases h
      · rename_i info2 ia2 heq
        simp only [Option.some.injEq] at h
        subst h
        split at heq
        · rename_i iaX hadd
          simp only [Option.some.injEq, Prod.mk.injEq] at heq
          obtain ⟨hinfo, hia2⟩ := heq
          subst hia2
          obtain ⟨hw, hsec, hnti⟩ := add_node_workStep
            (show alSorted ({ ia with next_target_interval := ia.next_target_interval + 1 }
              : InnerAction).our_current_nodes from hs) hadd
          refine ⟨?_, ?_, ?_⟩
          · have he : (send_relocate_response_rpc iaX info2).next_target_interval
                = iaX.next_target_interval := rfl
            have h2 : iaX.next_target_interval = ia.next_target_interval + 1 := hnti
            rw [he, h2]
            omega
          · exact show (send_relocate_response_rpc iaX info2).our_section = ia.our_section
              from hsec
          · exact show workStep ia (send_relocate_response_rpc iaX info2) from hw
        · cases heq

theorem respond_c7 {s s' : MemberState} {w : WaitedEvent} {r : TryResult}
    (hs : alSorted s.action.our_current_nodes)
    (h : RespondToRelocateRequests.try_next s w = some (s', r)) : C7Rel s s' := by
  rcases w with rpc | v | le
  · cases rpc
    case ExpectCandidate c =>
      simp only [RespondToRelocateRequests.try_next] at h
      obtain ⟨rfl, rfl⟩ := outcome_eq h
      exact C7Rel_frame rfl rfl rfl rfl
    all_goals
      simp only [RespondToRelocateRequests.try_next] at h
      obtain ⟨rfl, rfl⟩ := outcome_eq h
      exact C7Rel_refl _
  · cases v
    case ExpectCandidate c =>
      simp only [RespondToRelocateRequests.try_next, withActionOpt, Option.map_eq_some'] at h
      obtain ⟨t, ⟨ia', hcec, rfl⟩, hpair⟩ := h
      obtain ⟨rfl, rfl⟩ := pair_eq hpair
      obtain ⟨h1, h2, h3⟩ := cec_c7facts hs hcec
      exact C7Rel_mk h1 h2 rfl h3
    all_goals
      simp only [RespondToRelocateRequests.try_next] at h
      obtain ⟨rfl, rfl⟩ := outcome_eq h
      exact C7Rel_refl _
  · simp only [RespondToRelocateRequests.try_next] at h
    obtain ⟨rfl, rfl⟩ := outcome_eq h
    exact C7Rel_refl _

theorem fallback_c7 {s s' : MemberState} {w : WaitedEvent} {r : TryResult}
    (h : fallbackDispatch s w = some (s', r)) : C7Rel s s' := by
  rcases w with rpc | v | le
  · cases rpc <;>
      simp only [fallbackDispatch] at h <;>
      obtain ⟨rfl, rfl⟩ := outcome_eq h <;>
      first
        | exact C7Rel_frame rfl rfl rfl rfl
        | exact C7Rel_refl _
  · cases v <;>
      simp only [fallbackDispatch] at h <;>
      obtain ⟨rfl, rfl⟩ := outcome_eq h <;>
      first
        | exact C7Rel_frame rfl rfl rfl rfl
        | exact C7Rel_refl _
  · simp only [fallbackDispatch] at h
    obtain ⟨rfl, rfl⟩ := outcome_eq h
    exact C7Rel_refl _

theorem rpc_proof_c7 (s : MemberState) (c : Candidate) (p : Proof) :
    C7Rel s (StartResourceProof.rpc_proof s c p) := by
  rw [StartResourceProof.rpc_proof]
  split_ifs with h1 h2 <;>
    first
      | exact C7Rel_frame rfl rfl rfl rfl
      | (simp only []
         split <;> exact C7Rel_frame rfl rfl rfl rfl)

theorem rpc_info_c7 (s : MemberState) (info : CandidateInfo) :
    C7Rel s (StartResourceProof.rpc_info s info) := by
  rw [StartResourceProof.rpc_info]
  split_ifs <;> exact C7Rel_frame rfl rfl rfl rfl

theorem resource_proof_c7 {s s' : MemberState} {w : WaitedEvent} {r : TryResult}
    (hs : alSorted s.action.our_current_nodes)
    (h : StartResourceProof.try_next s w = some (s', r)) : C7Rel s s' := by
  rcases w with rpc | v | le
  · cases rpc
    case ResourceProofResponse c n p =>
      simp only [StartResourceProof.try_next] at h
      obtain ⟨rfl, rfl⟩ := outcome_eq h
      exact rpc_proof_c7 _ _ _
    case CandidateInfoRpc info =>
      simp only [StartResourceProof.try_next] at h
      obtain ⟨rfl, rfl⟩ := outcome_eq h
      exact rpc_info_c7 _ _
    all_goals
      simp only [StartResourceProof.try_next] at h
      obtain ⟨rfl, rfl⟩ := outcome_eq h
      exact C7Rel_refl _
  · cases v
    case CheckResourceProof =>
      simp only [StartResourceProof.try_next] at h
      split_ifs at h with hsome
      · obtain ⟨rfl, rfl⟩ := outcome_eq h
        exact C7Rel_frame rfl rfl rfl rfl
      · obtain ⟨rfl, rfl⟩ := outcome_eq h
        exact C7Rel_frame rfl rfl rfl rfl
    case Online oldc newc =>
      rw [StartResourceProof.try_next] at h
      rcases hc : s.start_resource_proof.candidate with _ | ⟨wn, co⟩
      · rw [hc] at h
        obtain ⟨rfl, rfl⟩ := outcome_eq h
        exact C7Rel_refl _
      · rw [hc] at h
        simp only [] at h
        split_ifs at h with hco
        · rw [StartResourceProof.make_node_online] at h
          cases hset : set_candidate_online_state s.action wn newc with
          | none =>
            rw [hset] at h
            simp at h
          | some ia =>
            rw [hset] at h
            simp only [Option.map_eq_some'] at h
            obtain ⟨t, ht, hpair⟩ := h
            obtain ⟨rfl, rfl⟩ := pair_eq hpair
            simp only [Option.some.injEq] at ht
            subst ht
            obtain ⟨hw, hsec, hnti⟩ := replace_node_workStep hs rfl hset
            exact C7Rel_mk (le_of_eq hnti.symm) hsec rfl hw
        · obtain ⟨rfl, rfl⟩ := outcome_eq h
          exact C7Rel_refl _
    case PurgeCandidate oldc =>
      rw [StartResourceProof.try_next] at h
      rcases hc : s.start_resource_proof.candidate with _ | ⟨wn, co⟩
      · rw [hc] at h
        obtain ⟨rfl, rfl⟩ := outcome_eq h
        exact C7Rel_refl _
      · rw [hc] at h
        simp only [] at h
        split_ifs at h with hco
        · cases hp : purge_node_info s.action wn with
          | none =>
            rw [hp] at h
            simp at h
          | some ia =>
            rw [hp] at h
            obtain ⟨rfl, rfl⟩ := outcome_eq h
            obtain ⟨hw, hsec, hnti⟩ := remove_node_workStep hs hp
            exact C7Rel_mk (le_of_eq hnti.symm) hsec rfl hw
        · obtain ⟨rfl, rfl⟩ := outcome_eq h
          exact C7Rel_refl _
    all_goals
      simp only [StartResourceProof.try_next] at h
      obtain ⟨rfl, rfl⟩ := outcome_eq h
      exact C7Rel_refl _
  · cases le
    case TimeoutAccept =>
      rw [StartResourceProof.try_next] at h
      rcases hc : s.start_resource_proof.candidate with _ | ⟨wn, co⟩
      · rw [hc] at h
        simp at h
      · rw [hc] at h
        obtain ⟨rfl, rfl⟩ := outcome_eq h
        exact C7Rel_frame rfl rfl rfl rfl
    case CheckResourceProofTimeout =>
      simp only [StartResourceProof.try_next] at h
      obtain ⟨rfl, rfl⟩ := outcome_eq h
      exact C7Rel_frame rfl rfl rfl rfl
    all_goals
      simp only [StartResourceProof.try_next] at h
      obtain ⟨rfl, rfl⟩ := outcome_eq h
      exact C7Rel_refl _

theorem c7_test_event (s : MemberState) (te : TestEvent) :
    C7Rel s (withAction s (process_test_events s.action te)) := by
  cases te
  case SetChurnNeeded c => exact C7Rel_frame rfl rfl rfl rfl
  case SetShortestPfx v => exact C7Rel_frame rfl rfl rfl rfl
  case SetResourceProof n p => exact C7Rel_frame rfl rfl rfl rfl
  case SetWorkUnitEnoughToRelocate node =>
    cases hl : alLookup node.name s.action.our_current_nodes with
    | none =>
      refine C7Rel_frame ?_ ?_ ?_ ?_ <;>
        simp [process_test_events, hl, withAction]
    | some ns =>
      refine C7Rel_mk (le_of_eq ?_) ?_ rfl ?_
      · simp [process_test_events, hl, withAction]
      · simp [process_test_events, hl, withAction]
      · intro n ns0 ns' h1 h2 hle
        simp only [withAction, process_test_events] at h2
        rw [hl] at h2
        rw [alLookup_alSet] at h2
        by_cases hn : n = node.name
        · rw [if_pos hn] at h2
          rw [hn] at h1
          rw [hl] at h1 h2
          simp only [Option.map_some', Option.some.injEq] at h2
          cases h1
          subst h2
          exact Or.inl hle
        · rw [if_neg hn, h1] at h2
          cases h2
          exact Or.inl le_rfl

/-- C7 counterexample: the test event `SetWorkUnitEnoughToRelocate` lowers
`work_units_done` from 1 to 0 for the surviving node 4 when its work count
exceeds its age, refuting unconditional per-node monotonicity of
`work_units_done` over `Action` operations. -/
theorem c7_counterexample :
    MemberState.try_next c7BadState
        (TestEvent.SetWorkUnitEnoughToRelocate ⟨⟨0, 4⟩⟩).to_event
      = some (stepState c7BadState (TestEvent.SetWorkUnitEnoughToRelocate ⟨⟨0, 4⟩⟩).to_event,
          .Handled)
    ∧ (alLookup 4 c7BadState.action.our_current_nodes).map (fun ns => ns.work_units_done)
        = some 1
    ∧ (alLookup 4 (stepState c7BadState
          (TestEvent.SetWorkUnitEnoughToRelocate ⟨⟨0, 4⟩⟩).to_event).action.our_current_nodes).map
        (fun ns => ns.work_units_done) = some 0 := by
  refine ⟨?_, ?_, ?_⟩ <;> decide

/-- C7 (amended): over one dispatch step from a well-formed table,
`next_target_interval` never decreases; assuming the pending elder-change
invariant, `our_section.version` never decreases and the invariant is
preserved; and every node surviving under the same name whose work count did
not exceed its age keeps at least its work count or is rebuilt at 0. -/
theorem c7_step_monotonic (s : MemberState) (e : Event) (s' : MemberState) (r : TryResult)
    (hsort : alSorted s.action.our_current_nodes)
    (h : MemberState.try_next s e = some (s', r)) : C7Rel s s' := by
  rw [MemberState.try_next] at h
  cases hte : e.to_test_event with
  | some te =>
    rw [hte] at h
    obtain ⟨rfl, rfl⟩ := outcome_eq h
    exact c7_test_event s te
  | none =>
    rw [hte] at h
    cases hw : e.to_waited_event with
    | none =>
      rw [hw] at h
      cases h
    | some w =>
      rw [hw] at h
      cases r with
      | Unhandled =>
        have hsame := tryNextWaited_unhandled h
        subst hsame
        exact C7Rel_refl _
      | Handled =>
        rcases tryNextWaited_handled_cases h with
          h1 | h1 | h1 | h1 | h1 | h1 | h1 | h1 | h1 | h1
        · exact coo_c7 h1
        · exact psplit_g_c7 h1
        · exact pmerge_g_c7 h1
        · exact pec_g_c7 h1
        · exact smsce_c7 h1
        · exact relocate_src_c7 hsort h1
        · exact decides_c7 h1
        · exact resource_proof_c7 hsort h1
        · exact respond_c7 hsort h1
        · exact fallback_c7 h1

theorem c7_witness :
    alSorted c7BadState.action.our_current_nodes
    ∧ C7Rel c7BadState
        (stepState c7BadState (ParsecVote.ExpectCandidate candOld1).to_event) := by
  have hsort : alSorted c7BadState.action.our_current_nodes := by
    simp [alSorted, c7BadState, MemberState.default, InnerAction.new_with_our_attributes]
  exact ⟨hsort,
    c7_step_monotonic c7BadState (ParsecVote.ExpectCandidate candOld1).to_event
      (stepState c7BadState (ParsecVote.ExpectCandidate candOld1).to_event) .Handled
      hsort (by decide)⟩

end RoutingModel
